import Mathlib

/-!
# Verification of the `ludo_plus` rules engine

A shallow embedding, in Lean 4, of the core rules engine of the
`tabletop-sim` repository (modules `src/shared/types.ts`,
`src/renderer/game/board.ts`, `src/renderer/game/deck.ts`, and
`src/renderer/game/gameState.ts`), together with theorems settling the
specification claims about it.

Modelling conventions:
* JavaScript numbers used as board coordinates / path indices are `Int`
  (path index `-1` means home); card values and loop counters are `Nat`.
* `null`/`undefined` become `Option`.
* The impure ingredients of the engine (`Math.random` inside `shuffle`,
  `Date.now()` for summoned-piece ids, the module-level log-id counter and
  card-id counter) are threaded explicitly through an `Env` record: `shuffle`
  is an arbitrary function `List Card → List Card`, `now` stands for the
  value of `Date.now()` at the dispatch, `logCtr`/`cardCtr` stand for the
  module-level counters.  No theorem depends on more than the properties the
  source guarantees for these (e.g. that a shuffle preserves length, stated
  as an explicit hypothesis where needed).
* The TypeScript non-null assertion `piece.supportType!` (applied where the
  code has established the piece is a support) is embedded as
  `Option.toList`, which agrees with the source whenever the field is
  present.
-/

/-! ## shared/types.ts -/

inductive PlayerColor where
  | red | blue | green | yellow
deriving DecidableEq, Repr

inductive SupportType where
  | escort | blocker | assassin | pusher
deriving DecidableEq, Repr

inductive PieceKind where
  | hero | support
deriving DecidableEq, Repr

def ALL_SUPPORT_TYPES : List SupportType :=
  [.escort, .blocker, .assassin, .pusher]

def MAX_SUPPORTS_ON_FIELD : Nat := 3

structure Position where
  row : Int
  col : Int
deriving DecidableEq, Repr

structure Player where
  id : String
  color : PlayerColor
  name : String
  isAI : Bool
deriving DecidableEq, Repr

structure Piece where
  id : String
  playerId : String
  color : PlayerColor
  position : Option Position
  pathIndex : Int
  isFinished : Bool
  kind : PieceKind
  supportType : Option SupportType := none
deriving DecidableEq, Repr

structure SupportRoster where
  playerId : String
  available : List SupportType
  onField : List String
deriving DecidableEq, Repr

structure Card where
  id : String
  value : Nat
deriving DecidableEq, Repr

structure PlayerHand where
  playerId : String
  cards : List Card
  deck : List Card
  discard : List Card
deriving DecidableEq, Repr

inductive LogAction where
  | moved | entered | captured | finished | skipped | refreshed | claimed | stole
  | summoned | hero_reset | support_removed | ability_used | intercepted
deriving DecidableEq, Repr

structure LogEntry where
  id : String
  playerName : String
  playerColor : PlayerColor
  action : LogAction
  cardValue : Option Nat := none
  targetPlayer : Option String := none
  supportType : Option SupportType := none
deriving DecidableEq, Repr

inductive GamePhase where
  | select_card
  | select_action
  | select_summon
  | select_push_target
  | portal_choice
  | game_over
deriving DecidableEq, Repr

/-- Embedding of `Partial<Record<PlayerColor, Position>>` (the claimed
summon portals) as one optional `Position` per color. -/
structure ClaimedSummons where
  red : Option Position := none
  blue : Option Position := none
  green : Option Position := none
  yellow : Option Position := none
deriving DecidableEq, Repr

def ClaimedSummons.get (cs : ClaimedSummons) : PlayerColor → Option Position
  | .red => cs.red
  | .blue => cs.blue
  | .green => cs.green
  | .yellow => cs.yellow

def ClaimedSummons.set (cs : ClaimedSummons) : PlayerColor → Option Position → ClaimedSummons
  | .red, v => { cs with red := v }
  | .blue, v => { cs with blue := v }
  | .green, v => { cs with green := v }
  | .yellow, v => { cs with yellow := v }

structure GameState where
  players : List Player
  pieces : List Piece
  hands : List PlayerHand
  supportRosters : List SupportRoster
  currentPlayerId : String
  phase : GamePhase
  selectedCard : Option Card
  winner : Option String
  log : List LogEntry
  isHotseat : Bool
  turnReady : Bool
  claimedSummons : ClaimedSummons
  pendingPortal : Option Position
  selectedPieceForAbility : Option String
  pusherUsedThisTurn : Bool
deriving DecidableEq, Repr

inductive GameAction where
  | SELECT_CARD (cardId : String)
  | UNSELECT_CARD
  | MOVE_PIECE (pieceId : String)
  | ENTER_PIECE (pieceId : String) (usePortal : Bool := false)
  | CLAIM_PORTAL
  | SKIP_PORTAL
  | STEAL_PORTAL (position : Position)
  | END_TURN
  | START_TURN
  | REFRESH_HAND
  | RESET_GAME (playerCount : Nat) (humanColor : PlayerColor) (isHotseat : Bool)
  | SUMMON_SUPPORT (supportType : SupportType) (usePortal : Bool := false)
  | ACTIVATE_PUSHER (pieceId : String)
  | EXECUTE_PUSH (targetPieceId : String)
  | CANCEL_ABILITY
deriving DecidableEq, Repr

/-! ## board.ts -/

def BOARD_SIZE : Nat := 7

def CENTER : Position := ⟨3, 3⟩

def ENTRY_POSITIONS : PlayerColor → Position
  | .red => ⟨0, 3⟩
  | .blue => ⟨3, 6⟩
  | .green => ⟨6, 3⟩
  | .yellow => ⟨3, 0⟩

def OUTER_RING : List Position :=
  [⟨0, 3⟩, ⟨0, 2⟩, ⟨0, 1⟩, ⟨0, 0⟩,
   ⟨1, 0⟩, ⟨2, 0⟩, ⟨3, 0⟩,
   ⟨4, 0⟩, ⟨5, 0⟩, ⟨6, 0⟩,
   ⟨6, 1⟩, ⟨6, 2⟩, ⟨6, 3⟩,
   ⟨6, 4⟩, ⟨6, 5⟩, ⟨6, 6⟩,
   ⟨5, 6⟩, ⟨4, 6⟩, ⟨3, 6⟩,
   ⟨2, 6⟩, ⟨1, 6⟩, ⟨0, 6⟩,
   ⟨0, 5⟩, ⟨0, 4⟩]

def RING_1 : List Position :=
  [⟨1, 3⟩, ⟨1, 2⟩, ⟨1, 1⟩,
   ⟨2, 1⟩, ⟨3, 1⟩,
   ⟨4, 1⟩, ⟨5, 1⟩,
   ⟨5, 2⟩, ⟨5, 3⟩,
   ⟨5, 4⟩, ⟨5, 5⟩,
   ⟨4, 5⟩, ⟨3, 5⟩,
   ⟨2, 5⟩, ⟨1, 5⟩,
   ⟨1, 4⟩]

def RING_2 : List Position :=
  [⟨2, 3⟩, ⟨2, 2⟩,
   ⟨3, 2⟩, ⟨4, 2⟩,
   ⟨4, 3⟩, ⟨4, 4⟩,
   ⟨3, 4⟩, ⟨2, 4⟩]

def OUTER_ENTRY_INDEX : PlayerColor → Nat
  | .red => 0
  | .yellow => 6
  | .green => 12
  | .blue => 18

def ring1EntryMap : PlayerColor → Nat
  | .red => 0
  | .yellow => 4
  | .green => 8
  | .blue => 12

def ring2EntryMap : PlayerColor → Nat
  | .red => 0
  | .yellow => 2
  | .green => 4
  | .blue => 6

def buildPlayerPath (color : PlayerColor) : List Position :=
  let entryIdx := OUTER_ENTRY_INDEX color
  let outer := (List.range OUTER_RING.length).map
    (fun i => OUTER_RING.getD ((entryIdx + i) % OUTER_RING.length) CENTER)
  let ring1Entry := ring1EntryMap color
  let ring1 := (List.range RING_1.length).map
    (fun i => RING_1.getD ((ring1Entry + i) % RING_1.length) CENTER)
  let ring2Entry := ring2EntryMap color
  let ring2 := (List.range RING_2.length).map
    (fun i => RING_2.getD ((ring2Entry + i) % RING_2.length) CENTER)
  outer ++ ring1 ++ ring2 ++ [CENTER]

def PLAYER_PATHS (color : PlayerColor) : List Position :=
  buildPlayerPath color

def TOTAL_PATH_LENGTH : Nat :=
  OUTER_RING.length + RING_1.length + RING_2.length + 1

def ALL_PATH_CELLS : List Position :=
  OUTER_RING ++ RING_1 ++ RING_2 ++ [CENTER]

def SAFE_POSITIONS : List Position :=
  [⟨0, 3⟩, ⟨3, 6⟩, ⟨6, 3⟩, ⟨3, 0⟩]

def SUMMON_POSITIONS : List Position :=
  [⟨1, 1⟩, ⟨1, 5⟩, ⟨5, 1⟩, ⟨5, 5⟩]

def isSafePosition (pos : Position) : Bool :=
  SAFE_POSITIONS.any (fun s => s.row == pos.row && s.col == pos.col)

def isSummonPosition (pos : Position) : Bool :=
  SUMMON_POSITIONS.any (fun s => s.row == pos.row && s.col == pos.col)

def isCenter (pos : Position) : Bool :=
  pos.row == CENTER.row && pos.col == CENTER.col

def positionsEqual (a b : Position) : Bool :=
  a.row == b.row && a.col == b.col

def getPositionForPlayer (color : PlayerColor) (pathIndex : Int) : Option Position :=
  let path := PLAYER_PATHS color
  if pathIndex < 0 || (path.length : Int) ≤ pathIndex then none
  else some (path.getD pathIndex.toNat CENTER)

def areAdjacent (a b : Position) : Bool :=
  let rowDiff := (a.row - b.row).natAbs
  let colDiff := (a.col - b.col).natAbs
  rowDiff ≤ 1 && colDiff ≤ 1 && (rowDiff > 0 || colDiff > 0)

def getDirection (f t : Position) : Position :=
  ⟨Int.sign (t.row - f.row), Int.sign (t.col - f.col)⟩

def getPushDestination (pusherPos targetPos : Position) : Option Position :=
  let direction := getDirection pusherPos targetPos
  let destPos : Position := ⟨targetPos.row + direction.row, targetPos.col + direction.col⟩
  if ALL_PATH_CELLS.any (fun p => positionsEqual p destPos) then some destPos
  else none

/-! ## deck.ts -/

/-- The 18 card values in the order `createDeck` emits them
(`DECK_COMPOSITION` iterated in ascending key order, as
`Object.entries` does for integer keys). -/
def DECK_VALUES : List Nat :=
  [1, 1, 1, 1, 2, 2, 2, 2, 3, 3, 3, 4, 4, 4, 5, 5, 6, 6]

def HAND_SIZE : Nat := 3

/-- `createDeck`, with the module-level card-id counter passed explicitly as
`base` and the random shuffle as `shuffle`. -/
def createDeck (shuffle : List Card → List Card) (base : Nat) : List Card :=
  shuffle (DECK_VALUES.mapIdx (fun i v => ⟨"card-" ++ toString (base + i + 1), v⟩))

def createPlayerHand (shuffle : List Card → List Card) (base : Nat) (playerId : String) :
    PlayerHand :=
  let deck := createDeck shuffle base
  { playerId := playerId
    cards := deck.take HAND_SIZE
    deck := deck.drop HAND_SIZE
    discard := [] }

def drawCard (shuffle : List Card → List Card) (hand : PlayerHand) : PlayerHand :=
  let hand :=
    if hand.deck.length == 0 && hand.discard.length > 0 then
      { hand with deck := shuffle hand.discard, discard := [] }
    else hand
  match hand.deck with
  | [] => hand
  | drawnCard :: remainingDeck =>
      { hand with cards := hand.cards ++ [drawnCard], deck := remainingDeck }

def playCard (hand : PlayerHand) (cardId : String) : PlayerHand :=
  match hand.cards.find? (fun c => c.id == cardId) with
  | none => hand
  | some playedCard =>
      { hand with
        cards := hand.cards.filter (fun c => c.id != cardId)
        discard := hand.discard ++ [playedCard] }

def getCardById (hand : PlayerHand) (cardId : String) : Option Card :=
  hand.cards.find? (fun c => c.id == cardId)

def refreshHand (shuffle : List Card → List Card) (hand : PlayerHand) : PlayerHand :=
  let newHand : PlayerHand :=
    { hand with cards := [], discard := hand.discard ++ hand.cards }
  (List.range HAND_SIZE).foldl (fun h _ => drawCard shuffle h) newHand

/-! ## gameState.ts -/

def ALL_COLORS : List PlayerColor := [.red, .blue, .green, .yellow]

def MAX_PIECES_PER_CELL : Nat := 2

/-- The impure context of the engine, passed explicitly: the random shuffle
used by the deck, the value of `Date.now()` at the dispatch, and the
module-level log-id and card-id counters. -/
structure Env where
  shuffle : List Card → List Card
  now : Nat := 0
  logCtr : Nat := 0
  cardCtr : Nat := 0

structure MoveResult where
  finalIndex : Int
  capturedPieceId : Option String
  blocked : Bool
  intercepted : Bool
  interceptedBy : Option String
  assassinDies : Bool
deriving DecidableEq, Repr

/-- The movement-modifier block at the top of `calculateMove` (also the body
of `getEffectiveMoveDistance`): base card value, +1 per own adjacent Escort
when the mover is the hero, +2 flat for an Assassin mover. -/
def effectiveStepCount (pieces : List Piece) (movingPiece : Piece) (baseSteps : Nat) : Nat :=
  let escortBonus :=
    if movingPiece.kind == .hero then
      match movingPiece.position with
      | none => 0
      | some mpos =>
          (pieces.filter (fun p =>
            p.playerId == movingPiece.playerId &&
            p.kind == .support &&
            p.supportType == some .escort &&
            match p.position with
            | some q => areAdjacent mpos q
            | none => false)).length
    else 0
  let assassinBonus :=
    if movingPiece.kind == .support && movingPiece.supportType == some .assassin then 2
    else 0
  baseSteps + escortBonus + assassinBonus

/-- One iteration of the Blocker-intercept loop in `calculateMove`: the check
performed at `startIndex + step`.  Returns the intercept position/blocker if
an enemy Blocker stands on that cell (`none` both for a missing path cell —
the loop's `continue` — and for no blocker). -/
def interceptAt (pieces : List Piece) (movingPiece : Piece) (color : PlayerColor)
    (startIndex : Int) (step : Nat) : Option (Int × Piece) :=
  let intermediateIndex := startIndex + (step : Int)
  match getPositionForPlayer color intermediateIndex with
  | none => none
  | some intermediatePos =>
      (pieces.find? (fun p =>
        p.playerId != movingPiece.playerId &&
        p.kind == .support &&
        p.supportType == some .blocker &&
        match p.position with
        | some q => positionsEqual q intermediatePos
        | none => false)).map (fun blocker => (intermediateIndex, blocker))

/-- The intercept loop of `calculateMove`: steps `1, …, effectiveSteps - 1`
in order, first hit wins. -/
def interceptScan (pieces : List Piece) (movingPiece : Piece) (color : PlayerColor)
    (startIndex : Int) (effectiveSteps : Nat) : Option (Int × Piece) :=
  (List.range' 1 (effectiveSteps - 1)).findSome?
    (interceptAt pieces movingPiece color startIndex)

def blockedMoveResult (startIndex : Int) : MoveResult :=
  { finalIndex := startIndex, capturedPieceId := none, blocked := true
    intercepted := false, interceptedBy := none, assassinDies := false }

def calculateMove (pieces : List Piece) (movingPiece : Piece) (color : PlayerColor)
    (baseSteps : Nat) : MoveResult :=
  let centerIndex : Int := (TOTAL_PATH_LENGTH : Int) - 1
  let startIndex := movingPiece.pathIndex
  let effectiveSteps := effectiveStepCount pieces movingPiece baseSteps
  let targetIndex := min (startIndex + (effectiveSteps : Int)) centerIndex
  if startIndex + (effectiveSteps : Int) > centerIndex then
    blockedMoveResult startIndex
  else
    match interceptScan pieces movingPiece color startIndex effectiveSteps with
    | some (intermediateIndex, blocker) =>
        { finalIndex := intermediateIndex
          capturedPieceId := some movingPiece.id
          blocked := false
          intercepted := true
          interceptedBy := some blocker.id
          assassinDies := false }
    | none =>
      match getPositionForPlayer color targetIndex with
      | none => blockedMoveResult startIndex
      | some targetPos =>
        let piecesAtTarget := pieces.filter (fun p =>
          p.id != movingPiece.id &&
          (match p.position with
           | some q => positionsEqual q targetPos
           | none => false) &&
          !p.isFinished)
        if piecesAtTarget.length ≥ MAX_PIECES_PER_CELL then
          blockedMoveResult startIndex
        else
          match piecesAtTarget with
          | [] =>
              { finalIndex := targetIndex, capturedPieceId := none, blocked := false
                intercepted := false, interceptedBy := none, assassinDies := false }
          | pieceAtTarget :: _ =>
            let isOwnPiece := pieceAtTarget.playerId == movingPiece.playerId
            let isProtectedBySafe := isSafePosition targetPos && pieceAtTarget.kind == .hero
            if isOwnPiece || isProtectedBySafe then
              blockedMoveResult startIndex
            else
              { finalIndex := targetIndex
                capturedPieceId := some pieceAtTarget.id
                blocked := false
                intercepted := false
                interceptedBy := none
                assassinDies := movingPiece.kind == .support &&
                  movingPiece.supportType == some .assassin }

def colorName : PlayerColor → String
  | .red => "Red"
  | .blue => "Blue"
  | .green => "Green"
  | .yellow => "Yellow"

def initColors (playerCount : Nat) (humanColor : PlayerColor) : List PlayerColor :=
  (humanColor :: ALL_COLORS.filter (fun c => c ≠ humanColor)).take playerCount

def initPlayers (playerCount : Nat) (humanColor : PlayerColor) (isHotseat : Bool) :
    List Player :=
  (initColors playerCount humanColor).mapIdx (fun idx color =>
    { id := "player-" ++ toString idx
      color := color
      name := if isHotseat then colorName color
              else if idx == 0 then "You" else "CPU " ++ toString idx
      isAI := if isHotseat then false else idx > 0 })

def defaultPlayer : Player := { id := "", color := .red, name := "", isAI := false }

def createInitialState (env : Env) (playerCount : Nat := 4)
    (humanColor : PlayerColor := .red) (isHotseat : Bool := false) : GameState :=
  let players := initPlayers playerCount humanColor isHotseat
  let pieces : List Piece := players.map (fun player =>
    { id := player.id ++ "-hero"
      playerId := player.id
      color := player.color
      position := none
      pathIndex := -1
      isFinished := false
      kind := .hero })
  let supportRosters : List SupportRoster := players.map (fun player =>
    { playerId := player.id, available := ALL_SUPPORT_TYPES, onField := [] })
  let hands := players.mapIdx (fun idx p =>
    createPlayerHand env.shuffle (env.cardCtr + 18 * idx) p.id)
  { players := players
    pieces := pieces
    hands := hands
    supportRosters := supportRosters
    currentPlayerId := (players.headD defaultPlayer).id
    phase := .select_card
    selectedCard := none
    winner := none
    log := []
    isHotseat := isHotseat
    turnReady := !isHotseat
    claimedSummons := {}
    pendingPortal := none
    selectedPieceForAbility := none
    pusherUsedThisTurn := false }

/-- `createLogEntry`, with the module-level `logIdCounter` passed explicitly
as `n` (the source increments it before use; successive entries of one
dispatch receive successive values). -/
def createLogEntry (n : Nat) (player : Player) (action : LogAction)
    (cardValue : Option Nat := none) (targetPlayer : Option String := none)
    (supportType : Option SupportType := none) : LogEntry :=
  { id := "log-" ++ toString (n + 1)
    playerName := player.name
    playerColor := player.color
    action := action
    cardValue := cardValue
    targetPlayer := targetPlayer
    supportType := supportType }

def endTurn (state : GameState) : GameState :=
  let currentIndex : Int :=
    match state.players.findIdx? (fun p => p.id == state.currentPlayerId) with
    | some i => (i : Int)
    | none => -1
  let nextIndex := ((currentIndex + 1) % (state.players.length : Int)).toNat
  let nextPlayer := state.players.getD nextIndex defaultPlayer
  let turnReady := if state.isHotseat then nextPlayer.isAI else true
  { state with
    currentPlayerId := nextPlayer.id
    phase := .select_card
    selectedCard := none
    turnReady := turnReady
    pendingPortal := none
    selectedPieceForAbility := none
    pusherUsedThisTurn := false }

def emptyHand (playerId : String) : PlayerHand :=
  { playerId := playerId, cards := [], deck := [], discard := [] }

/-- How `${supportType}` prints in template literals. -/
def supportTypeName : SupportType → String
  | .escort => "escort"
  | .blocker => "blocker"
  | .assassin => "assassin"
  | .pusher => "pusher"

/-- `SELECT_CARD` case of `gameReducer`. -/
def selectCardCase (s : GameState) (cardId : String) : GameState :=
  match s.hands.find? (fun h => h.playerId == s.currentPlayerId) with
  | none => s
  | some hand =>
    match getCardById hand cardId with
    | none => s
    | some card => { s with selectedCard := some card, phase := .select_action }

/-- `UNSELECT_CARD` case of `gameReducer`. -/
def unselectCardCase (s : GameState) : GameState :=
  if s.phase ≠ .select_action then s
  else { s with selectedCard := none, phase := .select_card }

/-- `ENTER_PIECE` case of `gameReducer`.  The two early-returning entry
branches are rendered as an `Option (Position × Int)` (`none` = the branch
returned the unchanged state). -/
def enterPieceCase (env : Env) (s : GameState) (pieceId : String) (usePortal : Bool) :
    GameState :=
  match s.selectedCard with
  | none => s
  | some selectedCard =>
  match s.pieces.find? (fun p => p.id == pieceId) with
  | none => s
  | some piece =>
  if piece.playerId ≠ s.currentPlayerId then s
  else if piece.position ≠ none then s
  else
  match s.players.find? (fun p => p.id == s.currentPlayerId) with
  | none => s
  | some player =>
    let defaultEntryPos := ENTRY_POSITIONS player.color
    let claimedSummonPos := s.claimedSummons.get player.color
    let defaultEntryResult : Option (Position × Int) :=
      let piecesAtEntry := s.pieces.filter (fun p =>
        (match p.position with
         | some q => positionsEqual q defaultEntryPos
         | none => false) && !p.isFinished)
      if piecesAtEntry.length ≥ MAX_PIECES_PER_CELL then none
      else if piecesAtEntry.any (fun p => p.playerId != s.currentPlayerId) then none
      else some (defaultEntryPos, 0)
    let entryResult : Option (Position × Int) :=
      match usePortal, claimedSummonPos with
      | true, some claimedPos =>
          let piecesAtSummon := s.pieces.filter (fun p =>
            (match p.position with
             | some q => positionsEqual q claimedPos
             | none => false) && !p.isFinished)
          if piecesAtSummon.length > 0 then none
          else
            match (PLAYER_PATHS player.color).findIdx?
                (fun pos => positionsEqual pos claimedPos) with
            | none => none
            | some summonPathIndex => some (claimedPos, (summonPathIndex : Int))
      | true, none => defaultEntryResult
      | false, _ => defaultEntryResult
    match entryResult with
    | none => s
    | some (entryPos, pathIndex) =>
      let newPieces := s.pieces.map (fun p =>
        if p.id == piece.id then { p with position := some entryPos, pathIndex := pathIndex }
        else p)
      let hand := (s.hands.find? (fun h => h.playerId == s.currentPlayerId)).getD
        (emptyHand s.currentPlayerId)
      let hand := playCard hand selectedCard.id
      let hand := drawCard env.shuffle hand
      let newHands := s.hands.map (fun h =>
        if h.playerId == s.currentPlayerId then hand else h)
      let logEntry := createLogEntry env.logCtr player .entered (some selectedCard.value)
      endTurn { s with
        pieces := newPieces
        hands := newHands
        selectedCard := none
        log := s.log ++ [logEntry] }

/-- `MOVE_PIECE` case of `gameReducer`.  The sequence of in-place updates to
`newPieces`/`newSupportRosters`/`newLog` is rendered as explicit tuples
(`step1` = capture resolution, `step2` = assassin-death / support-at-center /
normal move), with the log-id counter threaded alongside. -/
def movePieceCase (env : Env) (s : GameState) (pieceId : String) : GameState :=
  match s.selectedCard with
  | none => s
  | some selectedCard =>
  match s.pieces.find? (fun p => p.id == pieceId) with
  | none => s
  | some piece =>
  if piece.playerId ≠ s.currentPlayerId then s
  else if piece.position == none || piece.isFinished then s
  else
  match s.players.find? (fun p => p.id == s.currentPlayerId) with
  | none => s
  | some player =>
  let steps := selectedCard.value
  let moveResult := calculateMove s.pieces piece player.color steps
  if moveResult.blocked then s
  else
  let centerIndex : Int := (TOTAL_PATH_LENGTH : Int) - 1
  if moveResult.intercepted then
    let blockerOwner := s.players.find? (fun pl =>
      match s.pieces.find? (fun bl => some bl.id == moveResult.interceptedBy) with
      | some blocker => blocker.playerId == pl.id
      | none => false)
    let (newPieces, newSupportRosters, newLog) :
        List Piece × List SupportRoster × List LogEntry :=
      if piece.kind == .hero then
        (s.pieces.map (fun p =>
           if p.id == piece.id then { p with position := none, pathIndex := -1 } else p),
         s.supportRosters,
         s.log ++
           [createLogEntry env.logCtr player .intercepted (some steps)
              (blockerOwner.map (fun p => p.name)),
            createLogEntry (env.logCtr + 1) player .hero_reset])
      else
        (s.pieces.filter (fun p => p.id != piece.id),
         s.supportRosters.map (fun roster =>
           if roster.playerId == piece.playerId then
             { roster with
               onField := roster.onField.filter (fun id => id != piece.id)
               available := roster.available ++ piece.supportType.toList }
           else roster),
         s.log ++
           [createLogEntry env.logCtr player .intercepted (some steps)
              (blockerOwner.map (fun p => p.name)) piece.supportType,
            createLogEntry (env.logCtr + 1) player .support_removed none none
              piece.supportType])
    let hand := (s.hands.find? (fun h => h.playerId == s.currentPlayerId)).getD
      (emptyHand s.currentPlayerId)
    let hand := playCard hand selectedCard.id
    let hand := drawCard env.shuffle hand
    let newHands := s.hands.map (fun h =>
      if h.playerId == s.currentPlayerId then hand else h)
    endTurn { s with
      pieces := newPieces
      hands := newHands
      supportRosters := newSupportRosters
      selectedCard := none
      log := newLog }
  else
  match getPositionForPlayer player.color moveResult.finalIndex with
  | none => s
  | some newPos =>
  let isFinishing := moveResult.finalIndex == centerIndex && piece.kind == .hero
  let supportReachesCenter := moveResult.finalIndex == centerIndex && piece.kind == .support
  let step1 : List Piece × List SupportRoster × List LogEntry × Nat :=
    match moveResult.capturedPieceId with
    | none => (s.pieces, s.supportRosters, s.log, env.logCtr)
    | some capturedId =>
      match s.pieces.find? (fun p => p.id == capturedId) with
      | none => (s.pieces, s.supportRosters, s.log, env.logCtr)
      | some capturedPiece =>
        let capturedPlayer := s.players.find? (fun p => p.id == capturedPiece.playerId)
        if capturedPiece.kind == .hero then
          (s.pieces.map (fun p =>
             if p.id == capturedId then { p with position := none, pathIndex := -1 } else p),
           s.supportRosters,
           s.log ++
             [createLogEntry env.logCtr player .captured none
                (capturedPlayer.map (fun p => p.name)),
              createLogEntry (env.logCtr + 1) (capturedPlayer.getD defaultPlayer)
                .hero_reset],
           env.logCtr + 2)
        else
          (s.pieces.filter (fun p => p.id != capturedId),
           s.supportRosters.map (fun roster =>
             if roster.playerId == capturedPiece.playerId then
               { roster with
                 onField := roster.onField.filter (fun id => id != capturedPiece.id)
                 available := roster.available ++ capturedPiece.supportType.toList }
             else roster),
           s.log ++
             [createLogEntry env.logCtr player .captured none
                (capturedPlayer.map (fun p => p.name)) capturedPiece.supportType],
           env.logCtr + 1)
  let (pieces1, rosters1, log1, ctr1) := step1
  let step2 : List Piece × List SupportRoster × List LogEntry × Nat :=
    if moveResult.assassinDies then
      (pieces1.filter (fun p => p.id != piece.id),
       rosters1.map (fun roster =>
         if roster.playerId == piece.playerId then
           { roster with
             onField := roster.onField.filter (fun id => id != piece.id)
             available := roster.available ++ [SupportType.assassin] }
         else roster),
       log1 ++ [createLogEntry ctr1 player .support_removed none none (some .assassin)],
       ctr1 + 1)
    else if supportReachesCenter then
      (pieces1.filter (fun p => p.id != piece.id),
       rosters1.map (fun roster =>
         if roster.playerId == piece.playerId then
           { roster with
             onField := roster.onField.filter (fun id => id != piece.id)
             available := roster.available ++ piece.supportType.toList }
         else roster),
       log1 ++ [createLogEntry ctr1 player .support_removed none none piece.supportType],
       ctr1 + 1)
    else
      (pieces1.map (fun p =>
         if p.id == piece.id then
           { p with
             position := some newPos
             pathIndex := moveResult.finalIndex
             isFinished := isFinishing }
         else p),
       rosters1,
       log1 ++
         [if isFinishing then
            createLogEntry ctr1 player .finished (some selectedCard.value)
          else
            createLogEntry ctr1 player .moved (some selectedCard.value)],
       ctr1 + 1)
  let (pieces2, rosters2, log2, ctr2) := step2
  let hand := (s.hands.find? (fun h => h.playerId == s.currentPlayerId)).getD
    (emptyHand s.currentPlayerId)
  let hand := playCard hand selectedCard.id
  let hand := drawCard env.shuffle hand
  let newHands := s.hands.map (fun h =>
    if h.playerId == s.currentPlayerId then hand else h)
  let portalStep : ClaimedSummons × Option Position × List LogEntry :=
    if !isFinishing && !supportReachesCenter && !moveResult.assassinDies &&
        isSummonPosition newPos then
      let alreadyClaimed := (ALL_COLORS.map s.claimedSummons.get).any (fun pos =>
        match pos with
        | some q => positionsEqual q newPos
        | none => false)
      if !alreadyClaimed then
        match s.claimedSummons.get player.color with
        | none =>
            (s.claimedSummons.set player.color (some newPos), none,
             log2 ++ [createLogEntry ctr2 player .claimed])
        | some _ => (s.claimedSummons, some newPos, log2)
      else (s.claimedSummons, none, log2)
    else (s.claimedSummons, none, log2)
  let (newClaimedSummons, pendingPortal, log3) := portalStep
  let hero := pieces2.find? (fun p =>
    p.playerId == s.currentPlayerId && p.kind == .hero)
  let heroWon := match hero with | some h => h.isFinished | none => false
  if heroWon then
    { s with
      pieces := pieces2
      hands := newHands
      supportRosters := rosters2
      selectedCard := none
      phase := .game_over
      winner := some s.currentPlayerId
      log := log3
      claimedSummons := newClaimedSummons
      pendingPortal := none
      selectedPieceForAbility := none }
  else
    match pendingPortal with
    | some pp =>
        { s with
          pieces := pieces2
          hands := newHands
          supportRosters := rosters2
          selectedCard := none
          log := log3
          claimedSummons := newClaimedSummons
          phase := .portal_choice
          pendingPortal := some pp }
    | none =>
        endTurn { s with
          pieces := pieces2
          hands := newHands
          supportRosters := rosters2
          selectedCard := none
          log := log3
          claimedSummons := newClaimedSummons
          pendingPortal := none }

/-- `END_TURN` case of `gameReducer`. -/
def endTurnCase (env : Env) (s : GameState) : GameState :=
  match s.players.find? (fun p => p.id == s.currentPlayerId) with
  | some player =>
      if s.phase == .select_action then
        endTurn { s with log := s.log ++ [createLogEntry env.logCtr player .skipped] }
      else endTurn s
  | none => endTurn s

/-- `START_TURN` case of `gameReducer`. -/
def startTurnCase (s : GameState) : GameState :=
  if s.turnReady then s else { s with turnReady := true }

/-- `REFRESH_HAND` case of `gameReducer`. -/
def refreshHandCase (env : Env) (s : GameState) : GameState :=
  match s.players.find? (fun p => p.id == s.currentPlayerId) with
  | none => s
  | some player =>
  match s.hands.find? (fun h => h.playerId == s.currentPlayerId) with
  | none => s
  | some hand0 =>
    let hand := refreshHand env.shuffle hand0
    let newHands := s.hands.map (fun h =>
      if h.playerId == s.currentPlayerId then hand else h)
    let logEntry := createLogEntry env.logCtr player .refreshed
    endTurn { s with
      hands := newHands
      selectedCard := none
      log := s.log ++ [logEntry] }

/-- `CLAIM_PORTAL` case of `gameReducer`. -/
def claimPortalCase (env : Env) (s : GameState) : GameState :=
  if s.phase ≠ .portal_choice then s
  else match s.pendingPortal with
  | none => s
  | some pending =>
  match s.players.find? (fun p => p.id == s.currentPlayerId) with
  | none => s
  | some player =>
    endTurn { s with
      claimedSummons := s.claimedSummons.set player.color (some pending)
      pendingPortal := none
      log := s.log ++ [createLogEntry env.logCtr player .claimed] }

/-- `SKIP_PORTAL` case of `gameReducer`. -/
def skipPortalCase (s : GameState) : GameState :=
  if s.phase ≠ .portal_choice then s
  else endTurn { s with pendingPortal := none }

/-- `STEAL_PORTAL` case of `gameReducer`.  The `Object.entries` loop over
claimed portals is rendered as a search over the fixed color list. -/
def stealPortalCase (env : Env) (s : GameState) (position : Position) : GameState :=
  if s.phase ≠ .select_action then s
  else match s.players.find? (fun p => p.id == s.currentPlayerId) with
  | none => s
  | some player =>
    let previousOwner : Option PlayerColor :=
      ALL_COLORS.find? (fun color =>
        match s.claimedSummons.get color with
        | some pos => positionsEqual pos position
        | none => false)
    match previousOwner with
    | none => s
    | some prevOwner =>
    if prevOwner == player.color then s
    else
    match s.pieces.find? (fun p =>
        (match p.position with
         | some q => positionsEqual q position
         | none => false) && !p.isFinished) with
    | none => s
    | some pieceAtPos =>
    if pieceAtPos.color == prevOwner then s
    else
      let newClaimedSummons :=
        (s.claimedSummons.set prevOwner none).set player.color (some position)
      let targetPlayer := (s.players.find? (fun p => p.color == prevOwner)).map
        (fun p => p.name)
      endTurn { s with
        claimedSummons := newClaimedSummons
        selectedCard := none
        log := s.log ++ [createLogEntry env.logCtr player .stole none targetPlayer]
        pendingPortal := none }

/-- `SUMMON_SUPPORT` case of `gameReducer`. -/
def summonSupportCase (env : Env) (s : GameState) (supportType : SupportType)
    (usePortal : Bool) : GameState :=
  match s.selectedCard with
  | none => s
  | some selectedCard =>
  if s.phase ≠ .select_action then s
  else match s.players.find? (fun p => p.id == s.currentPlayerId) with
  | none => s
  | some player =>
  match s.supportRosters.find? (fun r => r.playerId == s.currentPlayerId) with
  | none => s
  | some roster =>
  if !(roster.available.contains supportType) then s
  else if roster.onField.length ≥ MAX_SUPPORTS_ON_FIELD then s
  else
    let defaultEntryPos := ENTRY_POSITIONS player.color
    let claimedSummonPos := s.claimedSummons.get player.color
    let canUsePortal := usePortal && decide (selectedCard.value ≥ 3) &&
      claimedSummonPos.isSome
    let entry : Option (Position × Int) :=
      match canUsePortal, claimedSummonPos with
      | true, some summonPos =>
          match (PLAYER_PATHS player.color).findIdx?
              (fun pos => positionsEqual pos summonPos) with
          | none => none
          | some summonPathIndex => some (summonPos, (summonPathIndex : Int))
      | true, none => some (defaultEntryPos, 0)
      | false, _ => some (defaultEntryPos, 0)
    match entry with
    | none => s
    | some (entryPos, pathIndex) =>
      let newSupportId :=
        player.id ++ "-support-" ++ supportTypeName supportType ++ "-" ++ toString env.now
      let newPiece : Piece :=
        { id := newSupportId
          playerId := player.id
          color := player.color
          position := some entryPos
          pathIndex := pathIndex
          isFinished := false
          kind := .support
          supportType := some supportType }
      let newPieces := s.pieces ++ [newPiece]
      let newSupportRosters := s.supportRosters.map (fun r =>
        if r.playerId == s.currentPlayerId then
          { r with
            available := r.available.filter (fun t => t ≠ supportType)
            onField := r.onField ++ [newSupportId] }
        else r)
      let hand := (s.hands.find? (fun h => h.playerId == s.currentPlayerId)).getD
        (emptyHand s.currentPlayerId)
      let hand := playCard hand selectedCard.id
      let hand := drawCard env.shuffle hand
      let newHands := s.hands.map (fun h =>
        if h.playerId == s.currentPlayerId then hand else h)
      let logEntry := createLogEntry env.logCtr player .summoned (some selectedCard.value)
        none (some supportType)
      endTurn { s with
        pieces := newPieces
        hands := newHands
        supportRosters := newSupportRosters
        selectedCard := none
        log := s.log ++ [logEntry] }

/-- `ACTIVATE_PUSHER` case of `gameReducer`. -/
def activatePusherCase (s : GameState) (pieceId : String) : GameState :=
  if s.phase ≠ .select_action then s
  else if s.pusherUsedThisTurn then s
  else match s.pieces.find? (fun p => p.id == pieceId) with
  | none => s
  | some piece =>
  if piece.playerId ≠ s.currentPlayerId then s
  else if piece.kind ≠ .support || piece.supportType ≠ some .pusher then s
  else if piece.position == none then s
  else
    { s with phase := .select_push_target, selectedPieceForAbility := some piece.id }

/-- `EXECUTE_PUSH` case of `gameReducer`. -/
def executePushCase (env : Env) (s : GameState) (targetPieceId : String) : GameState :=
  if s.phase ≠ .select_push_target then s
  else match s.selectedPieceForAbility with
  | none => s
  | some abilityId =>
  match s.pieces.find? (fun p => p.id == abilityId) with
  | none => s
  | some pusher =>
  match pusher.position with
  | none => s
  | some pusherPos =>
  match s.pieces.find? (fun p => p.id == targetPieceId) with
  | none => s
  | some target =>
  match target.position with
  | none => s
  | some targetPos =>
  if !areAdjacent pusherPos targetPos then s
  else match getPushDestination pusherPos targetPos with
  | none => s
  | some pushDest =>
  match s.players.find? (fun p => p.id == s.currentPlayerId) with
  | none => s
  | some player =>
    let step1 : List Piece × List SupportRoster × List LogEntry × Nat :=
      match s.pieces.find? (fun p =>
          (match p.position with
           | some q => positionsEqual q pushDest
           | none => false) && !p.isFinished && p.id != target.id) with
      | none => (s.pieces, s.supportRosters, s.log, env.logCtr)
      | some pieceAtDest =>
        let capturedPlayer := s.players.find? (fun p => p.id == pieceAtDest.playerId)
        if pieceAtDest.kind == .hero then
          (s.pieces.map (fun p =>
             if p.id == pieceAtDest.id then { p with position := none, pathIndex := -1 }
             else p),
           s.supportRosters,
           s.log ++ [createLogEntry env.logCtr (capturedPlayer.getD defaultPlayer)
             .hero_reset],
           env.logCtr + 1)
        else
          (s.pieces.filter (fun p => p.id != pieceAtDest.id),
           s.supportRosters.map (fun roster =>
             if roster.playerId == pieceAtDest.playerId then
               { roster with
                 onField := roster.onField.filter (fun id => id != pieceAtDest.id)
                 available := roster.available ++ pieceAtDest.supportType.toList }
             else roster),
           s.log,
           env.logCtr)
    let (pieces1, rosters1, log1, ctr1) := step1
    if isCenter pushDest then
      if target.kind == .hero then
        let pieces2 := pieces1.map (fun p =>
          if p.id == target.id then { p with position := some pushDest, isFinished := true }
          else p)
        { s with
          pieces := pieces2
          supportRosters := rosters1
          phase := .game_over
          winner := some target.playerId
          selectedPieceForAbility := none
          pusherUsedThisTurn := true
          log := log1 ++ [createLogEntry ctr1 player .ability_used none none (some .pusher)] }
      else
        let pieces2 := pieces1.filter (fun p => p.id != target.id)
        let rosters2 := rosters1.map (fun roster =>
          if roster.playerId == target.playerId then
            { roster with
              onField := roster.onField.filter (fun id => id != target.id)
              available := roster.available ++ target.supportType.toList }
          else roster)
        { s with
          pieces := pieces2
          supportRosters := rosters2
          phase := .select_action
          selectedPieceForAbility := none
          pusherUsedThisTurn := true
          log := log1 ++ [createLogEntry ctr1 player .ability_used none none (some .pusher)] }
    else
      let targetPlayer := s.players.find? (fun p => p.id == target.playerId)
      let newPathIndex : Int :=
        match targetPlayer with
        | some tp =>
            match (PLAYER_PATHS tp.color).findIdx? (fun pos => positionsEqual pos pushDest) with
            | some i => (i : Int)
            | none => -1
        | none => -1
      let pieces2 := pieces1.map (fun p =>
        if p.id == target.id then
          { p with
            position := some pushDest
            pathIndex := if newPathIndex ≥ 0 then newPathIndex else p.pathIndex }
        else p)
      { s with
        pieces := pieces2
        supportRosters := rosters1
        phase := .select_action
        selectedPieceForAbility := none
        pusherUsedThisTurn := true
        log := log1 ++ [createLogEntry ctr1 player .ability_used none none (some .pusher)] }

/-- `CANCEL_ABILITY` case of `gameReducer`. -/
def cancelAbilityCase (s : GameState) : GameState :=
  if s.phase ≠ .select_push_target then s
  else { s with phase := .select_action, selectedPieceForAbility := none }

/-- The top-level reducer: one dispatch of an action into the engine. -/
def gameReducer (env : Env) (state : GameState) (action : GameAction) : GameState :=
  match action with
  | .SELECT_CARD cardId => selectCardCase state cardId
  | .UNSELECT_CARD => unselectCardCase state
  | .ENTER_PIECE pieceId usePortal => enterPieceCase env state pieceId usePortal
  | .MOVE_PIECE pieceId => movePieceCase env state pieceId
  | .CLAIM_PORTAL => claimPortalCase env state
  | .SKIP_PORTAL => skipPortalCase state
  | .STEAL_PORTAL position => stealPortalCase env state position
  | .END_TURN => endTurnCase env state
  | .START_TURN => startTurnCase state
  | .REFRESH_HAND => refreshHandCase env state
  | .RESET_GAME playerCount humanColor isHotseat =>
      createInitialState env playerCount humanColor isHotseat
  | .SUMMON_SUPPORT supportType usePortal => summonSupportCase env state supportType usePortal
  | .ACTIVATE_PUSHER pieceId => activatePusherCase state pieceId
  | .EXECUTE_PUSH targetPieceId => executePushCase env state targetPieceId
  | .CANCEL_ABILITY => cancelAbilityCase state

/-! ## Concrete fixtures used by witnesses and counterexamples -/

/-- A deterministic environment (identity shuffle) for concrete evaluations. -/
def envW : Env := { shuffle := fun l => l }

def playerRedW : Player := { id := "player-0", color := .red, name := "You", isAI := false }

def playerBlueW : Player := { id := "player-1", color := .blue, name := "CPU 1", isAI := true }

def heroRedW (idx : Int) (pos : Option Position) : Piece :=
  { id := "player-0-hero", playerId := "player-0", color := .red, position := pos,
    pathIndex := idx, isFinished := false, kind := .hero }

def heroBlueW : Piece :=
  { id := "player-1-hero", playerId := "player-1", color := .blue, position := none,
    pathIndex := -1, isFinished := false, kind := .hero }

def rosterW (pid : String) : SupportRoster :=
  { playerId := pid, available := ALL_SUPPORT_TYPES, onField := [] }

def handW (pid : String) (cs : List Card) : PlayerHand :=
  { playerId := pid, cards := cs, deck := [], discard := [] }

def cardW : Card := ⟨"card-w1", 5⟩

/-- A 2-player `select_action` state: red hero on path index 46, a value-5
card selected. -/
def baseStateW : GameState :=
  { players := [playerRedW, playerBlueW]
    pieces := [heroRedW 46 (some ⟨3, 4⟩), heroBlueW]
    hands := [handW "player-0" [cardW], handW "player-1" []]
    supportRosters := [rosterW "player-0", rosterW "player-1"]
    currentPlayerId := "player-0"
    phase := .select_action
    selectedCard := some cardW
    winner := none
    log := []
    isHotseat := false
    turnReady := true
    claimedSummons := {}
    pendingPortal := none
    selectedPieceForAbility := none
    pusherUsedThisTurn := false }

/-- A finished game: phase `game_over` with a recorded winner. -/
def stateGameOverW : GameState :=
  { baseStateW with phase := .game_over, winner := some "player-0", selectedCard := none }

/-- A `portal_choice` state whose current player still holds `card-w1`. -/
def statePortalChoiceW : GameState :=
  { baseStateW with
    phase := .portal_choice
    selectedCard := none
    pendingPortal := some ⟨1, 1⟩ }

/-- A `select_card` state with no card selected. -/
def stateSelectCardW : GameState :=
  { baseStateW with phase := .select_card, selectedCard := none }

/-- Total number of card instances a player's hand record holds, across
its three zones. -/
def handCardCount (h : PlayerHand) : Nat :=
  h.deck.length + h.cards.length + h.discard.length


def cardC2W : Card := ⟨"card-w2", 2⟩

/-- A blue Blocker support standing on red's path cell of index 6 (`(3,0)`). -/
def blockerBlueW : Piece :=
  { id := "player-1-support-blocker-7", playerId := "player-1", color := .blue,
    position := some ⟨3, 0⟩, pathIndex := 12, isFinished := false, kind := .support,
    supportType := some .blocker }

/-- Red hero on path index 5 with a value-2 card selected; a blue Blocker
stands one cell ahead on red's path. -/
def stateC2W : GameState :=
  { baseStateW with
    pieces := [heroRedW 5 (some ⟨2, 0⟩), heroBlueW, blockerBlueW]
    hands := [handW "player-0" [cardC2W], handW "player-1" []]
    supportRosters := [rosterW "player-0",
      { playerId := "player-1", available := [.escort, .assassin, .pusher],
        onField := ["player-1-support-blocker-7"] }]
    selectedCard := some cardC2W }




def cardC4W : Card := ⟨"card-w4", 1⟩

/-- A red Assassin support on red path index 3 (`(0,0)`). -/
def assassinRedW : Piece :=
  { id := "player-0-support-assassin-3", playerId := "player-0", color := .red,
    position := some ⟨0, 0⟩, pathIndex := 3, isFinished := false, kind := .support,
    supportType := some .assassin }

/-- A blue Escort support on `(3,0)` (red path index 6, blue path index 12). -/
def escortBlueW : Piece :=
  { id := "player-1-support-escort-4", playerId := "player-1", color := .blue,
    position := some ⟨3, 0⟩, pathIndex := 12, isFinished := false, kind := .support,
    supportType := some .escort }

/-- Red Assassin with a value-1 card (effective steps 3) about to capture the
blue Escort on `(3,0)`. -/
def stateC4W : GameState :=
  { baseStateW with
    pieces := [assassinRedW, heroRedW (-1) none, heroBlueW, escortBlueW]
    hands := [handW "player-0" [cardC4W], handW "player-1" []]
    supportRosters := [
      { playerId := "player-0", available := [.escort, .blocker, .pusher],
        onField := ["player-0-support-assassin-3"] },
      { playerId := "player-1", available := [.blocker, .assassin, .pusher],
        onField := ["player-1-support-escort-4"] }]
    selectedCard := some cardC4W }




/-- A red Pusher support on `(1,3)` (red path index 24). -/
def pusherRedW : Piece :=
  { id := "player-0-support-pusher-9", playerId := "player-0", color := .red,
    position := some ⟨1, 3⟩, pathIndex := 24, isFinished := false, kind := .support,
    supportType := some .pusher }

/-- The blue hero on `(2,3)`, adjacent to the red Pusher, one push away from
the center `(3,3)`. -/
def heroBlueC6W : Piece :=
  { id := "player-1-hero", playerId := "player-1", color := .blue,
    position := some ⟨2, 3⟩, pathIndex := 42, isFinished := false, kind := .hero }

/-- A `select_push_target` state where red's Pusher can push the blue hero
into the center. -/
def stateC6W : GameState :=
  { baseStateW with
    pieces := [pusherRedW, heroRedW (-1) none, heroBlueC6W]
    hands := [handW "player-0" [cardW], handW "player-1" []]
    supportRosters := [
      { playerId := "player-0", available := [.escort, .blocker, .assassin],
        onField := ["player-0-support-pusher-9"] },
      rosterW "player-1"]
    phase := .select_push_target
    selectedCard := none
    selectedPieceForAbility := some "player-0-support-pusher-9" }




/-- A red Escort support occupying red's claimed portal cell `(1,1)`. -/
def escortRedW : Piece :=
  { id := "player-0-support-escort-2", playerId := "player-0", color := .red,
    position := some ⟨1, 1⟩, pathIndex := 26, isFinished := false, kind := .support,
    supportType := some .escort }

/-- A red Blocker support occupying red's default entry cell `(0,3)`. -/
def blockerRedW : Piece :=
  { id := "player-0-support-blocker-5", playerId := "player-0", color := .red,
    position := some ⟨0, 3⟩, pathIndex := 0, isFinished := false, kind := .support,
    supportType := some .blocker }

/-- Red's hero is off-board; red's claimed portal `(1,1)` holds one of red's
own pieces, and the default entry `(0,3)` holds exactly one own piece. -/
def stateC10W : GameState :=
  { baseStateW with
    pieces := [heroRedW (-1) none, escortRedW, blockerRedW, heroBlueW]
    hands := [handW "player-0" [cardW], handW "player-1" []]
    supportRosters := [
      { playerId := "player-0", available := [.assassin, .pusher],
        onField := ["player-0-support-escort-2", "player-0-support-blocker-5"] },
      rosterW "player-1"]
    claimedSummons := { red := some ⟨1, 1⟩ } }



/-! ## Claim C5 : definitions -/

/-- States reachable from `createInitialState` (any parameters) by
dispatching actions through `gameReducer`, with arbitrary environments at
each step. -/
inductive Reachable : GameState → Prop where
  | init : ∀ (env : Env) (pc : Nat) (hc : PlayerColor) (hs : Bool),
      Reachable (createInitialState env pc hc hs)
  | step : ∀ (s : GameState) (env : Env) (a : GameAction),
      Reachable s → Reachable (gameReducer env s a)

/-- The player list is one produced by `createInitialState`. -/
def PlayersShape (players : List Player) : Prop :=
  ∃ pc hc hs, players = initPlayers pc hc hs

/-- Rosters are in one-to-one correspondence (by position) with players. -/
def RostersMatch (players : List Player) (rosters : List SupportRoster) : Prop :=
  rosters.map (fun r => r.playerId) = players.map (fun p => p.id)

def CapOk (rosters : List SupportRoster) : Prop :=
  ∀ r ∈ rosters, r.onField.length ≤ MAX_SUPPORTS_ON_FIELD

/-- A piece whose id is deployed in a roster belongs to that roster's
player, is a support, and its subtype is not simultaneously available. -/
def OwnershipOk (pieces : List Piece) (rosters : List SupportRoster) : Prop :=
  ∀ r ∈ rosters, ∀ p ∈ pieces, p.id ∈ r.onField →
    p.playerId = r.playerId ∧ p.kind = .support ∧
      ∀ t, p.supportType = some t → t ∉ r.available

/-- Every support piece on the board is deployed in its owner's roster. -/
def SupportsRegistered (pieces : List Piece) (rosters : List SupportRoster) : Prop :=
  ∀ p ∈ pieces, p.kind = .support →
    ∃ r ∈ rosters, r.playerId = p.playerId ∧ p.id ∈ r.onField

/-- Piece ids have the shape the engine generates. -/
def IdShape (pieces : List Piece) : Prop :=
  ∀ p ∈ pieces,
    (p.kind = .hero ∧ p.id = p.playerId ++ "-hero") ∨
    (p.kind = .support ∧ ∃ (t : SupportType) (n : Nat), p.supportType = some t ∧
      p.id = p.playerId ++ "-support-" ++ supportTypeName t ++ "-" ++ toString n)

def OwnersOk (players : List Player) (pieces : List Piece) : Prop :=
  ∀ p ∈ pieces, p.playerId ∈ players.map (fun pl => pl.id)

/-- Every deployed id is backed by a piece of the roster's player. -/
def OnFieldBacked (pieces : List Piece) (rosters : List SupportRoster) : Prop :=
  ∀ r ∈ rosters, ∀ i ∈ r.onField, ∃ p ∈ pieces, p.id = i ∧ p.playerId = r.playerId

/-- Two deployed pieces of one roster never share a subtype. -/
def DeployedUnique (pieces : List Piece) (rosters : List SupportRoster) : Prop :=
  ∀ r ∈ rosters, ∀ p ∈ pieces, ∀ q ∈ pieces,
    p.id ∈ r.onField → q.id ∈ r.onField → p.supportType = q.supportType → p.id = q.id

/-- The inductive engine invariant over (players, pieces, rosters). -/
structure PRInv (players : List Player) (pieces : List Piece)
    (rosters : List SupportRoster) : Prop where
  rosters_match : RostersMatch players rosters
  cap : CapOk rosters
  ownership : OwnershipOk pieces rosters
  registered : SupportsRegistered pieces rosters
  idshape : IdShape pieces
  owners : OwnersOk players pieces
  backed : OnFieldBacked pieces rosters
  uniq : DeployedUnique pieces rosters

def EngineInv (s : GameState) : Prop :=
  PlayersShape s.players ∧ PRInv s.players s.pieces s.supportRosters

/-! ## Helper lemmas -/

theorem drawCard_handCardCount (shuffle : List Card → List Card)
    (hlen : ∀ l, (shuffle l).length = l.length) (h : PlayerHand) :
    handCardCount (drawCard shuffle h) = handCardCount h := by
  unfold drawCard handCardCount
  cases hdeck : h.deck with
  | cons d rest => simp [hdeck]; omega
  | nil =>
    cases hdisc : h.discard with
    | nil => simp [hdeck, hdisc]
    | cons x xs =>
      have hlen' := hlen (x :: xs)
      cases hs : shuffle (x :: xs) with
      | nil => rw [hs] at hlen'; simp at hlen'
      | cons y ys =>
        rw [hs] at hlen'
        simp [hdeck, hdisc, hs]
        simp at hlen'
        omega

theorem filter_ne_id_length (cards : List Card) (cid : String)
    (hnodup : (cards.map (fun c => c.id)).Nodup)
    (hheld : ∃ c ∈ cards, c.id = cid) :
    (cards.filter (fun c => c.id != cid)).length + 1 = cards.length := by
  induction cards with
  | nil => simp at hheld
  | cons c cs ih =>
    simp only [List.map_cons, List.nodup_cons] at hnodup
    by_cases hc : c.id = cid
    · have hall : ∀ p ∈ cs, p.id ≠ cid := by
        intro p hp hpc
        exact hnodup.1 (by rw [hc, ← hpc]; exact List.mem_map_of_mem _ hp)
      have : cs.filter (fun c => c.id != cid) = cs := by
        apply List.filter_eq_self.2
        intro p hp
        simpa using hall p hp
      simp [List.filter_cons, hc, this]
    · have hheld' : ∃ p ∈ cs, p.id = cid := by
        rcases hheld with ⟨p, hp, hpc⟩
        rcases List.mem_cons.1 hp with rfl | hmem
        · exact absurd hpc hc
        · exact ⟨p, hmem, hpc⟩
      have := ih hnodup.2 hheld'
      simp [List.filter_cons, hc]
      omega

theorem playCard_handCardCount (h : PlayerHand) (cid : String)
    (hnodup : (h.cards.map (fun c => c.id)).Nodup)
    (hheld : ∃ c ∈ h.cards, c.id = cid) :
    handCardCount (playCard h cid) = handCardCount h := by
  unfold playCard handCardCount
  cases hfind : h.cards.find? (fun c => c.id == cid) with
  | none =>
      rcases hheld with ⟨c, hc, hcid⟩
      have := List.find?_eq_none.1 hfind c hc
      simp [hcid] at this
  | some played =>
      have := filter_ne_id_length h.cards cid hnodup hheld
      simp only [List.length_append, List.length_cons, List.length_nil]
      omega

/-! ## Claim C7 -/

/-- Claim C7: for every player hand, `playCard` of a card held in the hand
followed by `drawCard` preserves the total number of card instances across
deck + held cards + discard — including when `drawCard` reshuffles the
discard pile into an empty deck — and `drawCard` on an empty deck with an
empty discard is a no-op.  (The shuffle is assumed length-preserving, and
card ids in the hand are assumed distinct, both guaranteed by the deck
construction.) -/
theorem c7_playCard_drawCard_round_trip (shuffle : List Card → List Card)
    (h : PlayerHand) (cid : String)
    (hlen : ∀ l, (shuffle l).length = l.length)
    (hnodup : (h.cards.map (fun c => c.id)).Nodup)
    (hheld : ∃ c ∈ h.cards, c.id = cid) :
    handCardCount (drawCard shuffle (playCard h cid)) = handCardCount h ∧
    (∀ h2 : PlayerHand, h2.deck = [] → h2.discard = [] → drawCard shuffle h2 = h2) := by
  constructor
  · rw [drawCard_handCardCount shuffle hlen, playCard_handCardCount h cid hnodup hheld]
  · intro h2 hdeck hdisc
    unfold drawCard
    simp [hdeck, hdisc]

/-- Witness for C7: a concrete hand with one held card and one discarded
card, under the identity shuffle. -/
theorem c7_witness :
    handCardCount (drawCard (fun l => l)
      (playCard ⟨"player-0", [⟨"card-a", 1⟩], [], [⟨"card-b", 2⟩]⟩ "card-a")) =
      handCardCount ⟨"player-0", [⟨"card-a", 1⟩], [], [⟨"card-b", 2⟩]⟩ ∧
    (∀ h2 : PlayerHand, h2.deck = [] → h2.discard = [] → drawCard (fun l => l) h2 = h2) :=
  c7_playCard_drawCard_round_trip (fun l => l)
    ⟨"player-0", [⟨"card-a", 1⟩], [], [⟨"card-b", 2⟩]⟩ "card-a"
    (fun _ => rfl) (by decide) ⟨⟨"card-a", 1⟩, by decide, rfl⟩

/-! ## Claim C1 -/

/-- Claim C1 (code bug evidence): the `game_over` phase is *not* terminal in
the code.  In a concrete 2-player `game_over` state, dispatching `END_TURN`
advances the current player and resets the phase to `select_card`, and
dispatching `REFRESH_HAND` also changes the state — contradicting the
specified terminality of `game_over`.  The reducer's `END_TURN` and
`REFRESH_HAND` cases have no `game_over` guard. -/
theorem c1_game_over_not_terminal :
    stateGameOverW.phase = GamePhase.game_over ∧
    (gameReducer envW stateGameOverW .END_TURN).phase = GamePhase.select_card ∧
    (gameReducer envW stateGameOverW .END_TURN).currentPlayerId = "player-1" ∧
    gameReducer envW stateGameOverW .END_TURN ≠ stateGameOverW ∧
    gameReducer envW stateGameOverW .REFRESH_HAND ≠ stateGameOverW := by
  refine ⟨rfl, rfl, rfl, ?_, ?_⟩ <;> decide

/-! ## Claim C8 -/

/-- Counterexample to C8 as stated: in a concrete `portal_choice` state whose
current player holds `card-w1`, `SELECT_CARD` does *not* return the state
unchanged — it selects the card and jumps to `select_action`. -/
theorem c8_counterexample :
    statePortalChoiceW.phase = GamePhase.portal_choice ∧
    (getCardById (statePortalChoiceW.hands.getD 0 (emptyHand "x")) "card-w1").isSome ∧
    gameReducer envW statePortalChoiceW (.SELECT_CARD "card-w1") ≠ statePortalChoiceW ∧
    (gameReducer envW statePortalChoiceW (.SELECT_CARD "card-w1")).phase =
      GamePhase.select_action := by
  refine ⟨rfl, rfl, ?_, rfl⟩; decide

/-- Claim C8 (amended): `SELECT_CARD` is accepted whenever the current
player's hand exists and contains the named card, *regardless of the phase*
(including `portal_choice`, `select_push_target` and `game_over`): it sets
the selected card and moves the phase to `select_action`. -/
theorem c8_selectCard_any_phase (env : Env) (s : GameState) (cardId : String)
    (hand : PlayerHand) (card : Card)
    (hhand : s.hands.find? (fun h => h.playerId == s.currentPlayerId) = some hand)
    (hcard : getCardById hand cardId = some card) :
    gameReducer env s (.SELECT_CARD cardId) =
      { s with selectedCard := some card, phase := .select_action } := by
  unfold gameReducer selectCardCase
  simp only [hhand, hcard]

/-- Witness for the amended C8, at the `portal_choice` counterexample state. -/
theorem c8_witness :
    gameReducer envW statePortalChoiceW (.SELECT_CARD "card-w1") =
      { statePortalChoiceW with selectedCard := some cardW, phase := .select_action } :=
  c8_selectCard_any_phase envW statePortalChoiceW "card-w1"
    (handW "player-0" [cardW]) cardW (by decide) (by decide)

/-! ## Claim C9 -/

/-- Counterexample to C9 as stated: dispatching `END_TURN` in a concrete
`select_card` state with *no card selected* appends no log entry at all (in
particular no 'skipped' entry), although the turn does advance. -/
theorem c9_counterexample :
    stateSelectCardW.selectedCard = none ∧
    (gameReducer envW stateSelectCardW .END_TURN).log = stateSelectCardW.log ∧
    (gameReducer envW stateSelectCardW .END_TURN).currentPlayerId = "player-1" := by
  exact ⟨rfl, rfl, rfl⟩

/-- Claim C9 (amended): dispatching `END_TURN` in phase `select_action`
performs the voluntary skip: exactly one 'skipped' log entry is appended and
the turn advances exactly as a plain turn end does (next player in fixed
order, phase back to `select_card`).  In any other phase the turn advances
without a log entry. -/
theorem c9_endTurn_select_action_skips (env : Env) (s : GameState) (player : Player)
    (hphase : s.phase = .select_action)
    (hplayer : s.players.find? (fun p => p.id == s.currentPlayerId) = some player) :
    (gameReducer env s .END_TURN).log =
      s.log ++ [createLogEntry env.logCtr player .skipped] ∧
    (gameReducer env s .END_TURN).currentPlayerId = (endTurn s).currentPlayerId ∧
    (gameReducer env s .END_TURN).phase = GamePhase.select_card := by
  unfold gameReducer endTurnCase
  rw [hplayer, hphase]
  simp [endTurn]

/-- Witness for the amended C9, at a concrete `select_action` state. -/
theorem c9_witness :
    (gameReducer envW baseStateW .END_TURN).log =
      baseStateW.log ++ [createLogEntry envW.logCtr playerRedW .skipped] ∧
    (gameReducer envW baseStateW .END_TURN).currentPlayerId =
      (endTurn baseStateW).currentPlayerId ∧
    (gameReducer envW baseStateW .END_TURN).phase = GamePhase.select_card :=
  c9_endTurn_select_action_skips envW baseStateW playerRedW rfl (by decide)

/-! ## Claim C3 -/

theorem calculateMove_overshoot (pieces : List Piece) (mp : Piece) (color : PlayerColor)
    (steps : Nat)
    (hover : ((TOTAL_PATH_LENGTH : Int) - 1) <
      mp.pathIndex + (effectiveStepCount pieces mp steps : Int)) :
    calculateMove pieces mp color steps = blockedMoveResult mp.pathIndex := by
  unfold calculateMove
  simp only
  rw [if_pos]
  exact hover

/-- Claim C3: in a `select_action` state, when the moving piece's path index
plus its effective step count (card value plus escort/assassin bonuses)
exceeds the center index `TOTAL_PATH_LENGTH - 1 = 48`, `MOVE_PIECE` is
rejected: the reducer returns exactly the prior state and the phase remains
`select_action`. -/
theorem c3_movePiece_overshoot_rejected (env : Env) (s : GameState) (pid : String)
    (card : Card) (piece : Piece) (player : Player)
    (hphase : s.phase = .select_action)
    (hcard : s.selectedCard = some card)
    (hfind : s.pieces.find? (fun p => p.id == pid) = some piece)
    (hown : piece.playerId = s.currentPlayerId)
    (hpos : piece.position.isSome)
    (hfin : piece.isFinished = false)
    (hplayer : s.players.find? (fun p => p.id == s.currentPlayerId) = some player)
    (hover : ((TOTAL_PATH_LENGTH : Int) - 1) <
      piece.pathIndex + (effectiveStepCount s.pieces piece card.value : Int)) :
    gameReducer env s (.MOVE_PIECE pid) = s ∧
    (gameReducer env s (.MOVE_PIECE pid)).phase = GamePhase.select_action := by
  rcases Option.isSome_iff_exists.1 hpos with ⟨v, hv⟩
  have hblocked := calculateMove_overshoot s.pieces piece player.color card.value hover
  have heq : gameReducer env s (.MOVE_PIECE pid) = s := by
    unfold gameReducer movePieceCase
    simp only [hcard, hfind, hplayer]
    rw [if_neg (by simp [hown])]
    rw [hv, hfin]
    rw [if_neg (by simp)]
    rw [hblocked]
    simp [blockedMoveResult]
  rw [heq, hphase]
  exact ⟨rfl, rfl⟩

/-- Witness for C3: red hero at path index 46 with a value-5 card selected
(46 + 5 > 48); the move is rejected and the state is returned unchanged. -/
theorem c3_witness :
    gameReducer envW baseStateW (.MOVE_PIECE "player-0-hero") = baseStateW ∧
    (gameReducer envW baseStateW (.MOVE_PIECE "player-0-hero")).phase =
      GamePhase.select_action :=
  c3_movePiece_overshoot_rejected envW baseStateW "player-0-hero" cardW
    (heroRedW 46 (some ⟨3, 4⟩)) playerRedW rfl rfl (by decide) (by decide) (by decide)
    (by decide) (by decide) (by decide)

/-! ## Claim C2 -/

theorem findSome?_range'_first {α : Type} (f : Nat → Option α) (a n k : Nat) (v : α)
    (hak : a ≤ k) (hkn : k < a + n) (h1 : f k = some v)
    (h2 : ∀ j, a ≤ j → j < k → f j = none) :
    (List.range' a n).findSome? f = some v := by
  induction n generalizing a with
  | zero => omega
  | succ n ih =>
    rw [List.range'_succ, List.findSome?_cons]
    by_cases hek : a = k
    · subst hek
      rw [h1]
    · have ha : f a = none := h2 a le_rfl (by omega)
      rw [ha]
      exact ih (a + 1) (by omega) (by omega) (fun j hj1 hj2 => h2 j (by omega) hj2)

theorem interceptScan_first (pieces : List Piece) (mp : Piece) (color : PlayerColor)
    (startIndex : Int) (eff k : Nat) (v : Int × Piece)
    (hk : 1 ≤ k) (hke : k < eff)
    (h1 : interceptAt pieces mp color startIndex k = some v)
    (h2 : ∀ j, 1 ≤ j → j < k → interceptAt pieces mp color startIndex j = none) :
    interceptScan pieces mp color startIndex eff = some v := by
  unfold interceptScan
  exact findSome?_range'_first _ 1 (eff - 1) k v hk (by omega) h1 h2

theorem calculateMove_intercepted (pieces : List Piece) (mp : Piece) (color : PlayerColor)
    (steps : Nat) (idx : Int) (blocker : Piece)
    (hnoover : mp.pathIndex + (effectiveStepCount pieces mp steps : Int) ≤
      (TOTAL_PATH_LENGTH : Int) - 1)
    (hscan : interceptScan pieces mp color mp.pathIndex
      (effectiveStepCount pieces mp steps) = some (idx, blocker)) :
    calculateMove pieces mp color steps =
      { finalIndex := idx
        capturedPieceId := some mp.id
        blocked := false
        intercepted := true
        interceptedBy := some blocker.id
        assassinDies := false } := by
  unfold calculateMove
  simp only
  rw [if_neg (by omega), hscan]

theorem find?_map_update (l : List Piece) (tid : String) (q : Piece) (f : Piece → Piece)
    (hf : ∀ p, (f p).id = p.id)
    (hfind : l.find? (fun p => p.id == tid) = some q) :
    (l.map (fun p => if p.id == tid then f p else p)).find? (fun p => p.id == tid) =
      some (f q) := by
  induction l with
  | nil => simp at hfind
  | cons x t ih =>
    rw [List.find?_cons] at hfind
    by_cases hc : (x.id == tid) = true
    · rw [hc] at hfind
      simp only [Option.some.injEq] at hfind
      subst hfind
      rw [List.map_cons, List.find?_cons, if_pos hc]
      have hfx : ((f x).id == tid) = true := by rw [hf x]; exact hc
      rw [hfx]
    · rw [Bool.not_eq_true] at hc
      rw [hc] at hfind
      simp only at hfind
      rw [List.map_cons, List.find?_cons, if_neg (by simp [hc]), hc]
      exact ih hfind

/-- Claim C2: during `MOVE_PIECE`, if an intermediate path cell strictly
between the mover's start index and its target index holds an opposing
Blocker support piece (the first such cell given as step `k`), the mover
never reaches its destination: `calculateMove` reports an interception and
the reducer captures the mover — a hero mover resets to home (position
`none`, path index `-1`); a support mover is removed and its subtype
returned to the owner's available pool — regardless of the mover's kind and
of what occupies the intended destination. -/
theorem c2_blocker_intercepts (env : Env) (s : GameState) (pid : String)
    (card : Card) (piece : Piece) (player : Player) (k : Nat) (idx : Int) (blocker : Piece)
    (hcard : s.selectedCard = some card)
    (hfind : s.pieces.find? (fun p => p.id == pid) = some piece)
    (hown : piece.playerId = s.currentPlayerId)
    (hpos : piece.position.isSome)
    (hfin : piece.isFinished = false)
    (hplayer : s.players.find? (fun p => p.id == s.currentPlayerId) = some player)
    (hnoover : piece.pathIndex + (effectiveStepCount s.pieces piece card.value : Int) ≤
      (TOTAL_PATH_LENGTH : Int) - 1)
    (hk : 1 ≤ k) (hke : k < effectiveStepCount s.pieces piece card.value)
    (hhit : interceptAt s.pieces piece player.color piece.pathIndex k = some (idx, blocker))
    (hfirst : ∀ j, 1 ≤ j → j < k →
      interceptAt s.pieces piece player.color piece.pathIndex j = none) :
    (calculateMove s.pieces piece player.color card.value).intercepted = true ∧
    (piece.kind = .hero →
      ((gameReducer env s (.MOVE_PIECE pid)).pieces.find? (fun p => p.id == piece.id)) =
        some { piece with position := none, pathIndex := -1 }) ∧
    (piece.kind = .support →
      (∀ p ∈ (gameReducer env s (.MOVE_PIECE pid)).pieces, p.id ≠ piece.id) ∧
      (∀ r ∈ (gameReducer env s (.MOVE_PIECE pid)).supportRosters,
        r.playerId = piece.playerId →
          piece.id ∉ r.onField ∧ ∀ t, piece.supportType = some t → t ∈ r.available)) := by
  rcases Option.isSome_iff_exists.1 hpos with ⟨v, hv⟩
  have hscan := interceptScan_first s.pieces piece player.color piece.pathIndex
    (effectiveStepCount s.pieces piece card.value) k (idx, blocker) hk hke hhit hfirst
  have hcm := calculateMove_intercepted s.pieces piece player.color card.value idx blocker
    hnoover hscan
  have hpid : piece.id = pid := by simpa using List.find?_some hfind
  refine ⟨by rw [hcm], ?_, ?_⟩
  · intro hkind
    unfold gameReducer movePieceCase
    simp only [hcard, hfind, hplayer]
    rw [if_neg (by simp [hown])]
    rw [hv, hfin]
    rw [if_neg (by simp)]
    rw [hcm]
    simp only [hkind]
    simp [endTurn]
    refine ⟨piece, ?_, ?_⟩
    · have hpred : ((fun p => p.id == piece.id) ∘ fun p =>
          if p.id = piece.id then
            { id := p.id, playerId := p.playerId, color := p.color, position := none,
              pathIndex := -1, isFinished := p.isFinished, kind := p.kind,
              supportType := p.supportType }
          else p) = (fun p : Piece => p.id == pid) := by
        funext p
        simp only [Function.comp_apply]
        by_cases hp : p.id = piece.id
        · rw [if_pos hp]
          show (p.id == piece.id) = (p.id == pid)
          rw [hpid]
        · rw [if_neg hp]
          show (p.id == piece.id) = (p.id == pid)
          rw [hpid]
      rw [hpred]
      exact hfind
    · rw [if_pos rfl, hfin, hkind]
  · intro hkind
    unfold gameReducer movePieceCase
    simp only [hcard, hfind, hplayer]
    rw [if_neg (by simp [hown])]
    rw [hv, hfin]
    rw [if_neg (by simp)]
    rw [hcm]
    simp only [hkind]
    simp [endTurn]
    intro r hr hrp
    by_cases hc : r.playerId = piece.playerId
    · rw [if_pos hc]
      constructor
      · intro hmem
        simp only [List.mem_filter] at hmem
        simp at hmem
      · intro t ht
        simp [ht]
    · rw [if_neg hc] at hrp
      exact absurd hrp hc

/-- Witness for C2: red hero at path index 5 moving 2 steps with a blue
Blocker on the intermediate cell (red path index 6); the hero is intercepted
and reset to home. -/
theorem c2_witness :
    (calculateMove stateC2W.pieces (heroRedW 5 (some ⟨2, 0⟩)) playerRedW.color
      cardC2W.value).intercepted = true ∧
    ((heroRedW 5 (some ⟨2, 0⟩)).kind = .hero →
      ((gameReducer envW stateC2W (.MOVE_PIECE "player-0-hero")).pieces.find?
          (fun p => p.id == (heroRedW 5 (some ⟨2, 0⟩)).id)) =
        some { heroRedW 5 (some ⟨2, 0⟩) with position := none, pathIndex := -1 }) ∧
    ((heroRedW 5 (some ⟨2, 0⟩)).kind = .support →
      (∀ p ∈ (gameReducer envW stateC2W (.MOVE_PIECE "player-0-hero")).pieces,
        p.id ≠ (heroRedW 5 (some ⟨2, 0⟩)).id) ∧
      (∀ r ∈ (gameReducer envW stateC2W (.MOVE_PIECE "player-0-hero")).supportRosters,
        r.playerId = (heroRedW 5 (some ⟨2, 0⟩)).playerId →
          (heroRedW 5 (some ⟨2, 0⟩)).id ∉ r.onField ∧
          ∀ t, (heroRedW 5 (some ⟨2, 0⟩)).supportType = some t → t ∈ r.available)) :=
  c2_blocker_intercepts envW stateC2W "player-0-hero" cardC2W (heroRedW 5 (some ⟨2, 0⟩))
    playerRedW 1 6 blockerBlueW rfl (by decide) (by decide) (by decide) (by decide)
    (by decide) (by decide) (by decide) (by decide) (by decide)
    (fun j hj1 hj2 => absurd (Nat.lt_of_lt_of_le hj2 hj1) (Nat.lt_irrefl j))

/-! ## Claim C4 -/

theorem calculateMove_capture (pieces : List Piece) (mp : Piece) (color : PlayerColor)
    (steps : Nat) (targetPos : Position) (q : Piece) (rest : List Piece)
    (hnoover : mp.pathIndex + (effectiveStepCount pieces mp steps : Int) ≤
      (TOTAL_PATH_LENGTH : Int) - 1)
    (hscan : interceptScan pieces mp color mp.pathIndex
      (effectiveStepCount pieces mp steps) = none)
    (hgp : getPositionForPlayer color
      (mp.pathIndex + (effectiveStepCount pieces mp steps : Int)) = some targetPos)
    (hts : pieces.filter (fun p =>
      p.id != mp.id &&
      (match p.position with
       | some w => positionsEqual w targetPos
       | none => false) &&
      !p.isFinished) = q :: rest)
    (hlen : (q :: rest).length < MAX_PIECES_PER_CELL)
    (hnown : (q.playerId == mp.playerId) = false)
    (hnprot : (isSafePosition targetPos && q.kind == PieceKind.hero) = false) :
    calculateMove pieces mp color steps =
      { finalIndex := mp.pathIndex + (effectiveStepCount pieces mp steps : Int)
        capturedPieceId := some q.id
        blocked := false
        intercepted := false
        interceptedBy := none
        assassinDies := mp.kind == .support && mp.supportType == some .assassin } := by
  unfold calculateMove
  simp only
  rw [if_neg (by omega)]
  simp only [hscan, min_eq_left hnoover, hgp, hts]
  rw [if_neg (by omega)]
  simp [hnown, hnprot]

theorem find?_filter_of_imp {α : Type} (l : List α) (p f : α → Bool)
    (himp : ∀ x, p x = true → f x = true) :
    (l.filter f).find? p = l.find? p := by
  induction l with
  | nil => rfl
  | cons x t ih =>
    by_cases hx : p x = true
    · simp [List.filter_cons, himp x hx, List.find?_cons, hx]
    · by_cases hfx : f x = true
      · simp [List.filter_cons, hfx, List.find?_cons, hx, ih]
      · simp [List.filter_cons, hfx, List.find?_cons, hx, ih]

/-- Claim C4: whenever an Assassin support piece completes a non-intercepted
capturing `MOVE_PIECE` (the capture configuration given explicitly: empty
intercept scan, a capturable enemy piece `q` first at the target cell), the
captured piece is resolved — a captured hero resets to home, a captured
support is removed with its subtype returned to its owner's pool — and the
capturing Assassin itself is also removed from the board with `assassin`
returned to its owner's available pool. -/
theorem c4_assassin_dies_after_capture (env : Env) (s : GameState) (pid : String)
    (card : Card) (piece : Piece) (player : Player) (targetPos : Position)
    (q : Piece) (rest : List Piece)
    (hcard : s.selectedCard = some card)
    (hfind : s.pieces.find? (fun p => p.id == pid) = some piece)
    (hown : piece.playerId = s.currentPlayerId)
    (hpos : piece.position.isSome)
    (hfin : piece.isFinished = false)
    (hplayer : s.players.find? (fun p => p.id == s.currentPlayerId) = some player)
    (hkind : piece.kind = .support)
    (hsub : piece.supportType = some .assassin)
    (hnoover : piece.pathIndex + (effectiveStepCount s.pieces piece card.value : Int) ≤
      (TOTAL_PATH_LENGTH : Int) - 1)
    (hscan : interceptScan s.pieces piece player.color piece.pathIndex
      (effectiveStepCount s.pieces piece card.value) = none)
    (hgp : getPositionForPlayer player.color
      (piece.pathIndex + (effectiveStepCount s.pieces piece card.value : Int)) =
      some targetPos)
    (hts : s.pieces.filter (fun p =>
      p.id != piece.id &&
      (match p.position with
       | some w => positionsEqual w targetPos
       | none => false) &&
      !p.isFinished) = q :: rest)
    (hlen : (q :: rest).length < MAX_PIECES_PER_CELL)
    (hnown : (q.playerId == piece.playerId) = false)
    (hnprot : (isSafePosition targetPos && q.kind == PieceKind.hero) = false)
    (hfindq : s.pieces.find? (fun p => p.id == q.id) = some q) :
    (calculateMove s.pieces piece player.color card.value).assassinDies = true ∧
    (∀ p ∈ (gameReducer env s (.MOVE_PIECE pid)).pieces, p.id ≠ piece.id) ∧
    (∀ r ∈ (gameReducer env s (.MOVE_PIECE pid)).supportRosters,
      r.playerId = piece.playerId →
        SupportType.assassin ∈ r.available ∧ piece.id ∉ r.onField) ∧
    (q.kind = .hero →
      ((gameReducer env s (.MOVE_PIECE pid)).pieces.find? (fun p => p.id == q.id)) =
        some { q with position := none, pathIndex := -1 }) ∧
    (q.kind = .support →
      (∀ p ∈ (gameReducer env s (.MOVE_PIECE pid)).pieces, p.id ≠ q.id) ∧
      (∀ r ∈ (gameReducer env s (.MOVE_PIECE pid)).supportRosters,
        r.playerId = q.playerId →
          (∀ t, q.supportType = some t → t ∈ r.available) ∧ q.id ∉ r.onField)) := by
  rcases Option.isSome_iff_exists.1 hpos with ⟨v, hv⟩
  have hcm := calculateMove_capture s.pieces piece player.color card.value targetPos q rest
    hnoover hscan hgp hts hlen hnown hnprot
  have hqne : q.id ≠ piece.id := by
    have hqmem : q ∈ s.pieces.filter (fun p =>
        p.id != piece.id &&
        (match p.position with
         | some w => positionsEqual w targetPos
         | none => false) &&
        !p.isFinished) := by
      rw [hts]; exact List.mem_cons_self q rest
    have hpred := (List.mem_filter.1 hqmem).2
    simp only [Bool.and_eq_true, bne_iff_ne, ne_eq] at hpred
    exact hpred.1.1
  have hdies : (calculateMove s.pieces piece player.color card.value).assassinDies = true := by
    rw [hcm]
    simp [hkind, hsub]
  refine ⟨hdies, ?_⟩
  cases hqk : q.kind with
  | hero =>
    unfold gameReducer movePieceCase
    simp only [hcard, hfind, hplayer]
    rw [if_neg (by simp [hown])]
    rw [hv, hfin]
    rw [if_neg (by simp)]
    simp only [hcm, hkind, hsub, hfindq, hqk, hgp]
    simp [endTurn, apply_ite GameState.pieces, apply_ite GameState.supportRosters, ite_self]
    constructor
    · intro r hr hrp
      by_cases hc : r.playerId = piece.playerId
      · rw [if_pos hc]
        refine ⟨by simp, ?_⟩
        intro hmem
        simp only [List.mem_filter] at hmem
        simp at hmem
      · rw [if_neg hc] at hrp
        exact absurd hrp hc
    · refine ⟨q, ?_, ?_⟩
      · have hpred : ((fun a => !decide (a.id = piece.id) && decide (a.id = q.id)) ∘ fun p =>
            if p.id = q.id then
              { id := p.id, playerId := p.playerId, color := p.color, position := none,
                pathIndex := -1, isFinished := p.isFinished, kind := p.kind,
                supportType := p.supportType }
            else p) = (fun p : Piece => p.id == q.id) := by
          funext x
          simp only [Function.comp_apply]
          by_cases hx : x.id = q.id
          · rw [if_pos hx]
            simp [hx, hqne]
          · rw [if_neg hx]
            simp [hx]
        rw [hpred]
        exact hfindq
      · rw [if_pos rfl, hqk]
  | support =>
    unfold gameReducer movePieceCase
    simp only [hcard, hfind, hplayer]
    rw [if_neg (by simp [hown])]
    rw [hv, hfin]
    rw [if_neg (by simp)]
    simp only [hcm, hkind, hsub, hfindq, hqk, hgp]
    simp [endTurn, apply_ite GameState.pieces, apply_ite GameState.supportRosters, ite_self]
    refine ⟨fun p hp h1 h2 => h1, ?_, ?_⟩
    · intro a ha hap
      split_ifs at hap ⊢ with h1 h2 h3
      all_goals simp_all
    · intro a ha hap
      split_ifs at hap ⊢ with h1 h2 h3
      all_goals simp_all

/-- Witness for C4: the red Assassin (path index 3, card value 1, effective
steps 3) captures the blue Escort on `(3,0)`; the Escort is removed with
`escort` returned to blue's pool, and the Assassin removes itself with
`assassin` returned to red's pool. -/
theorem c4_witness :
    (calculateMove stateC4W.pieces assassinRedW playerRedW.color
      cardC4W.value).assassinDies = true ∧
    (∀ p ∈ (gameReducer envW stateC4W
        (.MOVE_PIECE "player-0-support-assassin-3")).pieces, p.id ≠ assassinRedW.id) ∧
    (∀ r ∈ (gameReducer envW stateC4W
        (.MOVE_PIECE "player-0-support-assassin-3")).supportRosters,
      r.playerId = assassinRedW.playerId →
        SupportType.assassin ∈ r.available ∧ assassinRedW.id ∉ r.onField) ∧
    (escortBlueW.kind = .hero →
      ((gameReducer envW stateC4W
          (.MOVE_PIECE "player-0-support-assassin-3")).pieces.find?
        (fun p => p.id == escortBlueW.id)) =
        some { escortBlueW with position := none, pathIndex := -1 }) ∧
    (escortBlueW.kind = .support →
      (∀ p ∈ (gameReducer envW stateC4W
          (.MOVE_PIECE "player-0-support-assassin-3")).pieces, p.id ≠ escortBlueW.id) ∧
      (∀ r ∈ (gameReducer envW stateC4W
          (.MOVE_PIECE "player-0-support-assassin-3")).supportRosters,
        r.playerId = escortBlueW.playerId →
          (∀ t, escortBlueW.supportType = some t → t ∈ r.available) ∧
          escortBlueW.id ∉ r.onField)) :=
  c4_assassin_dies_after_capture envW stateC4W "player-0-support-assassin-3" cardC4W
    assassinRedW playerRedW ⟨3, 0⟩ escortBlueW [] rfl (by decide) (by decide) (by decide)
    (by decide) (by decide) (by decide) (by decide) (by decide) (by decide) (by decide)
    (by decide) (by decide) (by decide) (by decide) (by decide)

/-! ## Claim C6 -/

/-- Claim C6: if `EXECUTE_PUSH` pushes an adjacent, non-finished enemy hero
onto the center cell, that hero is immediately marked finished at the
center, the phase becomes `game_over`, and the recorded winner is the pushed
hero's owner (not the Pusher's owner, which differs by the enemy
hypothesis), with no card consumed (hands and selected card untouched) and
no turn change. -/
theorem c6_push_hero_to_center_wins (env : Env) (s : GameState)
    (targetPieceId pusherId : String) (pusher target : Piece)
    (pusherPos targetPos pushDest : Position) (player : Player)
    (hphase : s.phase = .select_push_target)
    (hsel : s.selectedPieceForAbility = some pusherId)
    (hfindp : s.pieces.find? (fun p => p.id == pusherId) = some pusher)
    (hppos : pusher.position = some pusherPos)
    (hfindt : s.pieces.find? (fun p => p.id == targetPieceId) = some target)
    (htpos : target.position = some targetPos)
    (hadj : areAdjacent pusherPos targetPos = true)
    (hdest : getPushDestination pusherPos targetPos = some pushDest)
    (hplayer : s.players.find? (fun p => p.id == s.currentPlayerId) = some player)
    (hcenter : isCenter pushDest = true)
    (hkind : target.kind = .hero)
    (hnfin : target.isFinished = false)
    (henemy : target.playerId ≠ s.currentPlayerId) :
    (gameReducer env s (.EXECUTE_PUSH targetPieceId)).phase = GamePhase.game_over ∧
    (gameReducer env s (.EXECUTE_PUSH targetPieceId)).winner = some target.playerId ∧
    ((gameReducer env s (.EXECUTE_PUSH targetPieceId)).pieces.find?
        (fun p => p.id == target.id)) =
      some { target with position := some pushDest, isFinished := true } ∧
    (gameReducer env s (.EXECUTE_PUSH targetPieceId)).hands = s.hands ∧
    (gameReducer env s (.EXECUTE_PUSH targetPieceId)).selectedCard = s.selectedCard ∧
    (gameReducer env s (.EXECUTE_PUSH targetPieceId)).currentPlayerId =
      s.currentPlayerId := by
  have htid : target.id = targetPieceId := by simpa using List.find?_some hfindt
  have hfindt' : s.pieces.find? (fun p => p.id == target.id) = some target := by
    rw [htid]; exact hfindt
  unfold gameReducer executePushCase
  rw [hphase]
  simp only [hsel, hfindp, hppos, hfindt, htpos, hadj, hdest, hplayer, hcenter, hkind]
  rw [if_neg (by simp)]
  rw [if_neg (by simp)]
  rw [if_pos (by simp)]
  cases hd : s.pieces.find? (fun p =>
      (match p.position with
       | some q => positionsEqual q pushDest
       | none => false) &&
       !p.isFinished &&
      p.id != target.id) with
  | none =>
    simp [hd]
    refine ⟨target, ?_, ?_⟩
    · have hcomp : ((fun p : Piece => p.id == target.id) ∘ fun p =>
          if p.id = target.id then
            { id := p.id, playerId := p.playerId, color := p.color,
              position := some pushDest, pathIndex := p.pathIndex, isFinished := true,
              kind := p.kind, supportType := p.supportType }
          else p) = (fun p : Piece => p.id == target.id) := by
        funext p
        by_cases hp : p.id = target.id <;> simp [hp]
      rw [hcomp]
      exact hfindt'
    · rw [if_pos rfl, hkind]
  | some pieceAtDest =>
    have hdne : pieceAtDest.id ≠ target.id := by
      have hpred := List.find?_some hd
      simp only [Bool.and_eq_true, bne_iff_ne, ne_eq] at hpred
      exact hpred.2
    have hdne' : target.id ≠ pieceAtDest.id := Ne.symm hdne
    by_cases hdk : (pieceAtDest.kind == PieceKind.hero) = true
    · simp [hd, hdk]
      refine ⟨target, ?_, ?_⟩
      · have hcomp : ((fun p : Piece => p.id == target.id) ∘
            (fun p =>
              if p.id = target.id then
                { id := p.id, playerId := p.playerId, color := p.color,
                  position := some pushDest, pathIndex := p.pathIndex, isFinished := true,
                  kind := p.kind, supportType := p.supportType }
              else p) ∘
            fun p =>
              if p.id = pieceAtDest.id then
                { id := p.id, playerId := p.playerId, color := p.color, position := none,
                  pathIndex := -1, isFinished := p.isFinished, kind := p.kind,
                  supportType := p.supportType }
              else p) = (fun p : Piece => p.id == target.id) := by
          funext p
          by_cases h1 : p.id = pieceAtDest.id <;> by_cases h2 : p.id = target.id <;>
            simp [Function.comp, h1, h2, hdne, hdne']
        rw [hcomp]
        exact hfindt'
      · rw [if_neg hdne', if_pos rfl, hkind]
    · simp [hd, hdk]
      refine ⟨target, ?_, ?_⟩
      · have hcomp : (fun a : Piece =>
            !decide (a.id = pieceAtDest.id) &&
              decide
                ((if a.id = target.id then
                      { id := a.id, playerId := a.playerId, color := a.color,
                        position := some pushDest, pathIndex := a.pathIndex,
                        isFinished := true, kind := a.kind, supportType := a.supportType }
                    else a).id =
                  target.id)) = (fun p : Piece => p.id == target.id) := by
          funext p
          by_cases h1 : p.id = pieceAtDest.id <;> by_cases h2 : p.id = target.id <;>
            simp [h1, h2, hdne, hdne']
        rw [hcomp]
        exact hfindt'
      · rw [if_pos rfl, hkind]

/-- Witness for C6: red's Pusher on `(1,3)` pushes the blue hero from
`(2,3)` into the center `(3,3)`: blue wins immediately. -/
theorem c6_witness :
    (gameReducer envW stateC6W (.EXECUTE_PUSH "player-1-hero")).phase =
      GamePhase.game_over ∧
    (gameReducer envW stateC6W (.EXECUTE_PUSH "player-1-hero")).winner =
      some heroBlueC6W.playerId ∧
    ((gameReducer envW stateC6W (.EXECUTE_PUSH "player-1-hero")).pieces.find?
        (fun p => p.id == heroBlueC6W.id)) =
      some { heroBlueC6W with position := some ⟨3, 3⟩, isFinished := true } ∧
    (gameReducer envW stateC6W (.EXECUTE_PUSH "player-1-hero")).hands =
      stateC6W.hands ∧
    (gameReducer envW stateC6W (.EXECUTE_PUSH "player-1-hero")).selectedCard =
      stateC6W.selectedCard ∧
    (gameReducer envW stateC6W (.EXECUTE_PUSH "player-1-hero")).currentPlayerId =
      stateC6W.currentPlayerId :=
  c6_push_hero_to_center_wins envW stateC6W "player-1-hero"
    "player-0-support-pusher-9" pusherRedW heroBlueC6W ⟨1, 3⟩ ⟨2, 3⟩ ⟨3, 3⟩ playerRedW
    rfl rfl (by decide) (by decide) (by decide) (by decide) (by decide) (by decide)
    (by decide) (by decide) (by decide) (by decide) (by decide)

/-! ## Claim C10 -/

/-- Claim C10: `ENTER_PIECE` with the `usePortal` flag set is rejected
(state returned unchanged) whenever any non-finished piece — including one
of the entering player's own — occupies the claimed portal cell, whereas
entry at the default start cell tolerates the player's own pieces: with
fewer than `MAX_PIECES_PER_CELL` non-finished pieces there, all owned by the
entering player, the piece enters at the default entry with path index 0. -/
theorem c10_enter_portal_blocked_start_tolerates_own (env : Env) (s : GameState) (pid : String)
    (card : Card) (piece : Piece) (player : Player) (spos : Position)
    (hcard : s.selectedCard = some card)
    (hfind : s.pieces.find? (fun p => p.id == pid) = some piece)
    (hown : piece.playerId = s.currentPlayerId)
    (hpos : piece.position = none)
    (hplayer : s.players.find? (fun p => p.id == s.currentPlayerId) = some player)
    (hclaim : s.claimedSummons.get player.color = some spos)
    (hocc : ∃ q ∈ s.pieces,
      ((match q.position with
        | some w => positionsEqual w spos
        | none => false) && !q.isFinished) = true)
    (hentry : (s.pieces.filter (fun p =>
        (match p.position with
         | some w => positionsEqual w (ENTRY_POSITIONS player.color)
         | none => false) && !p.isFinished)).length < MAX_PIECES_PER_CELL)
    (hallown : ∀ q ∈ s.pieces.filter (fun p =>
        (match p.position with
         | some w => positionsEqual w (ENTRY_POSITIONS player.color)
         | none => false) && !p.isFinished), q.playerId = s.currentPlayerId) :
    gameReducer env s (.ENTER_PIECE pid true) = s ∧
    ((gameReducer env s (.ENTER_PIECE pid false)).pieces.find?
        (fun p => p.id == piece.id)) =
      some { piece with position := some (ENTRY_POSITIONS player.color), pathIndex := 0 } := by
  have hpid : piece.id = pid := by simpa using List.find?_some hfind
  constructor
  · unfold gameReducer enterPieceCase
    simp only [hcard, hfind, hplayer]
    rw [if_neg (by simp [hown])]
    rw [hpos]
    rw [if_neg (by simp)]
    simp only [hclaim]
    rw [if_pos]
    · rcases hocc with ⟨q, hq, hqp⟩
      have : q ∈ s.pieces.filter (fun p =>
          (match p.position with
           | some w => positionsEqual w spos
           | none => false) && !p.isFinished) := List.mem_filter.2 ⟨hq, hqp⟩
      have hne := List.ne_nil_of_mem this
      exact List.length_pos.2 hne
  · unfold gameReducer enterPieceCase
    simp only [hcard, hfind, hplayer]
    rw [if_neg (by simp [hown])]
    rw [hpos]
    rw [if_neg (by simp)]
    rw [if_neg (by omega)]
    rw [if_neg (by
      simp only [List.any_eq_true]
      rintro ⟨q, hq, hqne⟩
      exact (by simpa using hqne : q.playerId ≠ s.currentPlayerId) (hallown q hq))]
    simp only [endTurn]
    exact find?_map_update s.pieces piece.id piece
      (fun p => { p with position := some (ENTRY_POSITIONS player.color), pathIndex := 0 })
      (fun p => rfl) (by rw [hpid]; exact hfind)

/-- Witness for C10: with red's own Escort on the claimed portal `(1,1)`,
portal entry is rejected outright, while default entry at `(0,3)` (occupied
by one own piece) succeeds. -/
theorem c10_witness :
    gameReducer envW stateC10W (.ENTER_PIECE "player-0-hero" true) = stateC10W ∧
    ((gameReducer envW stateC10W (.ENTER_PIECE "player-0-hero" false)).pieces.find?
        (fun p => p.id == (heroRedW (-1) none).id)) =
      some { heroRedW (-1) none with
        position := some (ENTRY_POSITIONS playerRedW.color), pathIndex := 0 } :=
  c10_enter_portal_blocked_start_tolerates_own envW stateC10W "player-0-hero" cardW
    (heroRedW (-1) none) playerRedW ⟨1, 1⟩ rfl (by decide) (by decide) (by decide)
    (by decide) (by decide) ⟨escortRedW, by decide, by decide⟩ (by decide) (by decide)


/-! ## Claim C5 : player id facts -/

theorem initPlayers_map_id (pc : Nat) (hc : PlayerColor) (hs : Bool) :
    (initPlayers pc hc hs).map (fun p => p.id) =
      (List.range (initColors pc hc).length).map (fun i => "player-" ++ toString i) := by
  unfold initPlayers
  apply List.ext_getElem
  · simp
  · intro i h1 h2
    simp

theorem initColors_length_le (pc : Nat) (hc : PlayerColor) :
    (initColors pc hc).length ≤ 4 := by
  unfold initColors
  cases hc <;> simp [ALL_COLORS, List.length_take] <;> omega

theorem playersShape_id_mem {players : List Player} (h : PlayersShape players) :
    ∀ pl ∈ players, ∃ i, i < 4 ∧ pl.id = "player-" ++ toString i := by
  rcases h with ⟨pc, hc, hs, rfl⟩
  intro pl hpl
  have hm : pl.id ∈ (initPlayers pc hc hs).map (fun p => p.id) :=
    List.mem_map_of_mem _ hpl
  rw [initPlayers_map_id] at hm
  rcases List.mem_map.1 hm with ⟨i, hi, hid⟩
  exact ⟨i, lt_of_lt_of_le (List.mem_range.1 hi) (initColors_length_le pc hc), hid.symm⟩

theorem playersShape_id_nodup {players : List Player} (h : PlayersShape players) :
    (players.map (fun p => p.id)).Nodup := by
  rcases h with ⟨pc, hc, hs, rfl⟩
  rw [initPlayers_map_id]
  have hle := initColors_length_le pc hc
  set n := (initColors pc hc).length with hn
  clear_value n
  interval_cases n <;> decide

theorem playerId_str_length {i : Nat} (h : i < 4) :
    ("player-" ++ toString i).length = 8 := by
  interval_cases i <;> rfl

theorem string_append_inj {a b u v : String} (hab : a.length = b.length)
    (h : a ++ u = b ++ v) : a = b ∧ u = v := by
  have hd : a.data ++ u.data = b.data ++ v.data := by
    rw [← String.data_append, ← String.data_append, h]
  have h2 := List.append_inj hd hab
  exact ⟨String.ext h2.1, String.ext h2.2⟩

theorem supportTypeName_append_inj {t t' : SupportType} {u v : String}
    (h : supportTypeName t ++ u = supportTypeName t' ++ v) : t = t' := by
  have hd : (supportTypeName t).data ++ u.data = (supportTypeName t').data ++ v.data := by
    rw [← String.data_append, ← String.data_append, h]
  cases t <;> cases t' <;> first
    | rfl
    | (exfalso; simp [supportTypeName] at hd)

/-! ## Claim C5 : generic preservation lemmas -/

theorem enginv_of_fields {s s' : GameState}
    (hpl : s'.players = s.players) (hpc : s'.pieces = s.pieces)
    (hro : s'.supportRosters = s.supportRosters) (h : EngineInv s) : EngineInv s' := by
  rw [EngineInv, hpl, hpc, hro]
  exact h

theorem prinv_map {players : List Player} {pieces : List Piece}
    {rosters : List SupportRoster} (f : Piece → Piece)
    (hf : ∀ p, (f p).id = p.id ∧ (f p).playerId = p.playerId ∧
      (f p).kind = p.kind ∧ (f p).supportType = p.supportType)
    (hinv : PRInv players pieces rosters) : PRInv players (pieces.map f) rosters := by
  constructor
  · exact hinv.rosters_match
  · exact hinv.cap
  · intro r hr p hp hid
    rcases List.mem_map.1 hp with ⟨p0, hp0, rfl⟩
    rcases hf p0 with ⟨h1, h2, h3, h4⟩
    rw [h1] at hid
    rcases hinv.ownership r hr p0 hp0 hid with ⟨o1, o2, o3⟩
    exact ⟨h2.trans o1, h3.trans o2, fun t ht => o3 t (h4 ▸ ht)⟩
  · intro p hp hk
    rcases List.mem_map.1 hp with ⟨p0, hp0, rfl⟩
    rcases hf p0 with ⟨h1, h2, h3, h4⟩
    rcases hinv.registered p0 hp0 (h3 ▸ hk) with ⟨r, hr, hr1, hr2⟩
    exact ⟨r, hr, by rw [h2, hr1], by rw [h1]; exact hr2⟩
  · intro p hp
    rcases List.mem_map.1 hp with ⟨p0, hp0, rfl⟩
    rcases hf p0 with ⟨h1, h2, h3, h4⟩
    rcases hinv.idshape p0 hp0 with ⟨hk, hid⟩ | ⟨hk, t, n, hst, hid⟩
    · exact Or.inl ⟨h3.trans hk, by rw [h1, h2, hid]⟩
    · exact Or.inr ⟨h3.trans hk, t, n, h4.trans hst, by rw [h1, h2, hid]⟩
  · intro p hp
    rcases List.mem_map.1 hp with ⟨p0, hp0, rfl⟩
    rw [(hf p0).2.1]
    exact hinv.owners p0 hp0
  · intro r hr i hi
    rcases hinv.backed r hr i hi with ⟨p0, hp0, hpi, hpp⟩
    exact ⟨f p0, List.mem_map_of_mem f hp0, by rw [(hf p0).1]; exact hpi,
      by rw [(hf p0).2.1]; exact hpp⟩
  · intro r hr p hp q hq hpi hqi hst
    rcases List.mem_map.1 hp with ⟨p0, hp0, rfl⟩
    rcases List.mem_map.1 hq with ⟨q0, hq0, rfl⟩
    rw [(hf p0).1] at hpi ⊢
    rw [(hf q0).1] at hqi ⊢
    rw [(hf p0).2.2.2, (hf q0).2.2.2] at hst
    exact hinv.uniq r hr p0 hp0 q0 hq0 hpi hqi hst

theorem roster_eq_of_playerId {rosters : List SupportRoster}
    (hnd : (rosters.map (fun r => r.playerId)).Nodup)
    {r r' : SupportRoster} (hr : r ∈ rosters) (hr' : r' ∈ rosters)
    (h : r.playerId = r'.playerId) : r = r' :=
  List.inj_on_of_nodup_map hnd hr hr' h

theorem prinv_remove {players : List Player} {pieces : List Piece}
    {rosters : List SupportRoster} (q : Piece) (ts : List SupportType)
    (hinv : PRInv players pieces rosters)
    (hnd : (players.map (fun p => p.id)).Nodup)
    (hq : q ∈ pieces) (hqk : q.kind = .support)
    (hts : ∃ t, q.supportType = some t ∧ ts = [t]) :
    PRInv players (pieces.filter (fun p => p.id != q.id))
      (rosters.map (fun r =>
        if (r.playerId == q.playerId) = true then
          { r with onField := r.onField.filter (fun i => i != q.id)
                   available := r.available ++ ts }
        else r)) := by
  have hrnod : (rosters.map (fun r => r.playerId)).Nodup := by
    rw [hinv.rosters_match]; exact hnd
  rcases hts with ⟨t, hqt, rfl⟩
  rcases hinv.registered q hq hqk with ⟨R0, hR0, hR0p, hR0f⟩
  constructor
  · rw [RostersMatch, List.map_map]
    have hfun : ((fun r : SupportRoster => r.playerId) ∘ fun r =>
        if (r.playerId == q.playerId) = true then
          { r with onField := r.onField.filter (fun i => i != q.id)
                   available := r.available ++ [t] }
        else r) = (fun r : SupportRoster => r.playerId) := by
      funext r
      by_cases hc : (r.playerId == q.playerId) = true
      · rw [Function.comp_apply, if_pos hc]
      · rw [Function.comp_apply, if_neg hc]
    rw [hfun]
    exact hinv.rosters_match
  · intro r hr
    rcases List.mem_map.1 hr with ⟨r0, hr0, rfl⟩
    by_cases hc : (r0.playerId == q.playerId) = true
    · rw [if_pos hc]
      exact le_trans (List.length_filter_le _ _) (hinv.cap r0 hr0)
    · rw [if_neg hc]
      exact hinv.cap r0 hr0
  · intro r hr p hp hid
    rcases List.mem_map.1 hr with ⟨r0, hr0, rfl⟩
    rcases List.mem_filter.1 hp with ⟨hp0, hpne⟩
    have hpneq : p.id ≠ q.id := by simpa using hpne
    by_cases hc : (r0.playerId == q.playerId) = true
    · rw [if_pos hc] at hid ⊢
      simp only [List.mem_filter] at hid
      rcases hinv.ownership r0 hr0 p hp0 hid.1 with ⟨o1, o2, o3⟩
      refine ⟨o1, o2, fun t' ht' hmem => ?_⟩
      rcases List.mem_append.1 hmem with hmem | hmem
      · exact o3 t' ht' hmem
      · -- t' = t : the removed piece's subtype; use uniqueness
        simp only [List.mem_singleton] at hmem
        subst hmem
        have hc' : r0.playerId = q.playerId := by simpa using hc
        have hR0eq : R0 = r0 := roster_eq_of_playerId hrnod hR0 hr0 (hR0p.trans hc'.symm)
        have hqid : q.id ∈ r0.onField := by rw [← hR0eq]; exact hR0f
        have := hinv.uniq r0 hr0 p hp0 q hq hid.1 hqid (by rw [ht', hqt])
        exact hpneq this
    · rw [if_neg hc] at hid ⊢
      exact hinv.ownership r0 hr0 p hp0 hid
  · intro p hp hk
    rcases List.mem_filter.1 hp with ⟨hp0, hpne⟩
    rcases hinv.registered p hp0 hk with ⟨r0, hr0, hr0p, hr0f⟩
    refine ⟨if (r0.playerId == q.playerId) = true then
        { r0 with onField := r0.onField.filter (fun i => i != q.id)
                  available := r0.available ++ [t] }
      else r0, List.mem_map_of_mem _ hr0, ?_, ?_⟩
    · by_cases hc : (r0.playerId == q.playerId) = true
      · rw [if_pos hc]
        exact hr0p
      · rw [if_neg hc]
        exact hr0p
    · by_cases hc : (r0.playerId == q.playerId) = true
      · rw [if_pos hc]
        refine List.mem_filter.2 ⟨hr0f, ?_⟩
        simpa using (by simpa using hpne : p.id ≠ q.id)
      · rw [if_neg hc]
        exact hr0f
  · intro p hp
    exact hinv.idshape p (List.mem_filter.1 hp).1
  · intro p hp
    exact hinv.owners p (List.mem_filter.1 hp).1
  · intro r hr i hi
    rcases List.mem_map.1 hr with ⟨r0, hr0, rfl⟩
    by_cases hc : (r0.playerId == q.playerId) = true
    · rw [if_pos hc] at hi ⊢
      simp only [List.mem_filter] at hi
      rcases hinv.backed r0 hr0 i hi.1 with ⟨p0, hp0, hpi, hpp⟩
      have hiq : i ≠ q.id := by simpa using hi.2
      refine ⟨p0, List.mem_filter.2 ⟨hp0, ?_⟩, hpi, hpp⟩
      simp [hpi, hiq]
    · rw [if_neg hc] at hi ⊢
      rcases hinv.backed r0 hr0 i hi with ⟨p0, hp0, hpi, hpp⟩
      have hio : p0.id ∈ r0.onField := by rw [hpi]; exact hi
      have hp0q : p0.id ≠ q.id := by
        intro hEq
        have hqio : q.id ∈ r0.onField := by rw [← hEq]; exact hio
        have hqown := hinv.ownership r0 hr0 q hq hqio
        exact (by simpa using hc : r0.playerId ≠ q.playerId) hqown.1.symm
      refine ⟨p0, List.mem_filter.2 ⟨hp0, ?_⟩, hpi, hpp⟩
      simp [hp0q]
  · intro r hr p hp p' hp' hpi hpi' hst
    rcases List.mem_map.1 hr with ⟨r0, hr0, rfl⟩
    have hpm := (List.mem_filter.1 hp).1
    have hpm' := (List.mem_filter.1 hp').1
    by_cases hc : (r0.playerId == q.playerId) = true
    · rw [if_pos hc] at hpi hpi'
      simp only [List.mem_filter] at hpi hpi'
      exact hinv.uniq r0 hr0 p hpm p' hpm' hpi.1 hpi'.1 hst
    · rw [if_neg hc] at hpi hpi'
      exact hinv.uniq r0 hr0 p hpm p' hpm' hpi hpi' hst

theorem supportTypeName_data_append_inj {t t' : SupportType} {u v : List Char}
    (h : (supportTypeName t).data ++ u = (supportTypeName t').data ++ v) : t = t' := by
  cases t <;> cases t' <;> first
    | rfl
    | (exfalso; simp [supportTypeName] at h)

/-- In an invariant state, the id `createInitialState`/`SUMMON_SUPPORT`
generates for a fresh summon of an available subtype collides with no piece
on the board. -/
theorem fresh_summon_id {players : List Player} {pieces : List Piece}
    {rosters : List SupportRoster} (hps : PlayersShape players)
    (hinv : PRInv players pieces rosters)
    {player : Player} (hpl : player ∈ players)
    {R : SupportRoster}
    (hR : rosters.find? (fun r => r.playerId == player.id) = some R)
    {t : SupportType} (htav : t ∈ R.available) (n : Nat) :
    ∀ p ∈ pieces,
      p.id ≠ player.id ++ "-support-" ++ supportTypeName t ++ "-" ++ toString n := by
  intro p hp heq
  rcases playersShape_id_mem hps player hpl with ⟨i, hi, hpid⟩
  rcases List.mem_map.1 (hinv.owners p hp) with ⟨pl', hpl', hpid'⟩
  rcases playersShape_id_mem hps pl' hpl' with ⟨j, hj, hpid'j⟩
  have hplen : p.playerId.length = 8 := by
    rw [← hpid', hpid'j]; exact playerId_str_length hj
  have hplen2 : player.id.length = 8 := by
    rw [hpid]; exact playerId_str_length hi
  have hlend : p.playerId.data.length = player.id.data.length := hplen.trans hplen2.symm
  rcases hinv.idshape p hp with ⟨hk, hid⟩ | ⟨hk, t', m, hst, hid⟩
  · rw [hid] at heq
    have hd := congrArg String.data heq
    simp only [String.data_append, List.append_assoc] at hd
    rcases List.append_inj hd hlend with ⟨hpfx, hsfx⟩
    simp at hsfx
  · rw [hid] at heq
    have hd := congrArg String.data heq
    simp only [String.data_append, List.append_assoc] at hd
    rcases List.append_inj hd hlend with ⟨hpfx, hsfx⟩
    have hsfx2 := List.append_cancel_left hsfx
    have ht' : t' = t := supportTypeName_data_append_inj hsfx2
    have hppid : p.playerId = player.id := String.ext hpfx
    rcases hinv.registered p hp hk with ⟨r0, hr0, hr0p, hr0f⟩
    have hrnod : (rosters.map (fun r => r.playerId)).Nodup := by
      rw [hinv.rosters_match]; exact playersShape_id_nodup hps
    have hRmem : R ∈ rosters := List.mem_of_find?_eq_some hR
    have hRpid : R.playerId = player.id := by simpa using List.find?_some hR
    have hr0R : r0 = R := roster_eq_of_playerId hrnod hr0 hRmem
      (by rw [hr0p, hppid, hRpid])
    have hown := hinv.ownership R hRmem p hp (hr0R ▸ hr0f)
    exact hown.2.2 t (by rw [hst, ht']) htav

theorem prinv_summon {players : List Player} {pieces : List Piece}
    {rosters : List SupportRoster} (hps : PlayersShape players)
    (hinv : PRInv players pieces rosters)
    {player : Player} (hpl : player ∈ players)
    {current : String} (hcur : player.id = current)
    {R : SupportRoster}
    (hR : rosters.find? (fun r => r.playerId == current) = some R)
    {t : SupportType} (htav : t ∈ R.available)
    (hcap : R.onField.length < MAX_SUPPORTS_ON_FIELD)
    {newPiece : Piece} (n : Nat)
    (hnid : newPiece.id = player.id ++ "-support-" ++ supportTypeName t ++ "-" ++ toString n)
    (hnpid : newPiece.playerId = player.id)
    (hnk : newPiece.kind = .support)
    (hnst : newPiece.supportType = some t) :
    PRInv players (pieces ++ [newPiece])
      (rosters.map (fun r =>
        if (r.playerId == current) = true then
          { r with available := r.available.filter (fun x => x ≠ t)
                   onField := r.onField ++ [newPiece.id] }
        else r)) := by
  have hfresh : ∀ p ∈ pieces, p.id ≠ newPiece.id := by
    intro p hp
    rw [hnid]
    exact fresh_summon_id hps hinv hpl (by rw [hcur]; exact hR) htav n p hp
  have hrnod : (rosters.map (fun r => r.playerId)).Nodup := by
    rw [hinv.rosters_match]; exact playersShape_id_nodup hps
  have hRmem : R ∈ rosters := List.mem_of_find?_eq_some hR
  have hRpid : R.playerId = current := by simpa using List.find?_some hR
  have hRuniq : ∀ r0 ∈ rosters, r0.playerId = current → r0 = R := fun r0 hr0 h =>
    roster_eq_of_playerId hrnod hr0 hRmem (h.trans hRpid.symm)
  have hfreshF : ∀ r0 ∈ rosters, newPiece.id ∉ r0.onField := by
    intro r0 hr0 hmem
    rcases hinv.backed r0 hr0 _ hmem with ⟨q0, hq0, hq0id, _⟩
    exact hfresh q0 hq0 hq0id
  constructor
  · rw [RostersMatch, List.map_map]
    have hfun : ((fun r : SupportRoster => r.playerId) ∘ fun r =>
        if (r.playerId == current) = true then
          { r with available := r.available.filter (fun x => x ≠ t)
                   onField := r.onField ++ [newPiece.id] }
        else r) = (fun r : SupportRoster => r.playerId) := by
      funext r
      by_cases hc : (r.playerId == current) = true
      · rw [Function.comp_apply, if_pos hc]
      · rw [Function.comp_apply, if_neg hc]
    rw [hfun]
    exact hinv.rosters_match
  · intro r hr
    rcases List.mem_map.1 hr with ⟨r0, hr0, rfl⟩
    by_cases hc : (r0.playerId == current) = true
    · rw [if_pos hc]
      have hr0R : r0 = R := hRuniq r0 hr0 (by simpa using hc)
      rw [hr0R]
      show (R.onField ++ [newPiece.id]).length ≤ MAX_SUPPORTS_ON_FIELD
      rw [List.length_append]
      exact hcap
    · rw [if_neg hc]
      exact hinv.cap r0 hr0
  · intro r hr p hp hid
    rcases List.mem_map.1 hr with ⟨r0, hr0, rfl⟩
    rcases List.mem_append.1 hp with hp | hp
    · by_cases hc : (r0.playerId == current) = true
      · rw [if_pos hc] at hid ⊢
        have hr0R : r0 = R := hRuniq r0 hr0 (by simpa using hc)
        rw [hr0R] at hid ⊢
        have hid' : p.id ∈ R.onField ++ [newPiece.id] := hid
        rcases List.mem_append.1 hid' with hid2 | hid2
        · rcases hinv.ownership R hRmem p hp hid2 with ⟨o1, o2, o3⟩
          refine ⟨o1, o2, fun t' ht' hmem => ?_⟩
          have hmem' : t' ∈ R.available.filter (fun x => x ≠ t) := hmem
          exact o3 t' ht' (List.mem_filter.1 hmem').1
        · exact absurd (by simpa using hid2) (hfresh p hp)
      · rw [if_neg hc] at hid ⊢
        exact hinv.ownership r0 hr0 p hp hid
    · have hpn : p = newPiece := by simpa using hp
      by_cases hc : (r0.playerId == current) = true
      · rw [if_pos hc]
        have hr0R : r0 = R := hRuniq r0 hr0 (by simpa using hc)
        rw [hr0R, hpn]
        refine ⟨?_, hnk, ?_⟩
        · show newPiece.playerId = R.playerId
          rw [hnpid, hcur]
          exact hRpid.symm
        · intro t' ht' hmem
          have htt : t = t' := Option.some.inj (hnst ▸ ht')
          have hmem' : t' ∈ R.available.filter (fun x => x ≠ t) := hmem
          have hne := (List.mem_filter.1 hmem').2
          simp [← htt] at hne
      · rw [if_neg hc] at hid
        rw [hpn] at hid
        exact absurd hid (hfreshF r0 hr0)
  · intro p hp hk
    rcases List.mem_append.1 hp with hp | hp
    · rcases hinv.registered p hp hk with ⟨r0, hr0, hr0p, hr0f⟩
      refine ⟨if (r0.playerId == current) = true then
          { r0 with available := r0.available.filter (fun x => x ≠ t)
                    onField := r0.onField ++ [newPiece.id] }
        else r0, List.mem_map_of_mem _ hr0, ?_, ?_⟩
      · by_cases hc : (r0.playerId == current) = true
        · rw [if_pos hc]
          exact hr0p
        · rw [if_neg hc]
          exact hr0p
      · by_cases hc : (r0.playerId == current) = true
        · rw [if_pos hc]
          exact List.mem_append.2 (Or.inl hr0f)
        · rw [if_neg hc]
          exact hr0f
    · have hpn : p = newPiece := by simpa using hp
      refine ⟨if (R.playerId == current) = true then
          { R with available := R.available.filter (fun x => x ≠ t)
                   onField := R.onField ++ [newPiece.id] }
        else R, List.mem_map_of_mem _ hRmem, ?_, ?_⟩
      · rw [if_pos (by simpa using hRpid)]
        show R.playerId = p.playerId
        rw [hpn, hnpid, hcur]
        exact hRpid
      · rw [if_pos (by simpa using hRpid)]
        rw [hpn]
        exact List.mem_append.2 (Or.inr (by simp))
  · intro p hp
    rcases List.mem_append.1 hp with hp | hp
    · exact hinv.idshape p hp
    · have hpn : p = newPiece := by simpa using hp
      rw [hpn]
      exact Or.inr ⟨hnk, t, n, hnst, by rw [hnid, hnpid]⟩
  · intro p hp
    rcases List.mem_append.1 hp with hp | hp
    · exact hinv.owners p hp
    · have hpn : p = newPiece := by simpa using hp
      rw [hpn, hnpid]
      exact List.mem_map_of_mem _ hpl
  · intro r hr i hi
    rcases List.mem_map.1 hr with ⟨r0, hr0, rfl⟩
    by_cases hc : (r0.playerId == current) = true
    · rw [if_pos hc] at hi ⊢
      have hr0R : r0 = R := hRuniq r0 hr0 (by simpa using hc)
      rw [hr0R] at hi ⊢
      have hi' : i ∈ R.onField ++ [newPiece.id] := hi
      rcases List.mem_append.1 hi' with hi2 | hi2
      · rcases hinv.backed R hRmem i hi2 with ⟨p0, hp0, hpi, hpp⟩
        refine ⟨p0, List.mem_append.2 (Or.inl hp0), hpi, ?_⟩
        show p0.playerId = R.playerId
        exact hpp
      · have hieq : i = newPiece.id := by simpa using hi2
        refine ⟨newPiece, List.mem_append.2 (Or.inr (by simp)), hieq.symm, ?_⟩
        show newPiece.playerId = R.playerId
        rw [hnpid, hcur]
        exact hRpid.symm
    · rw [if_neg hc] at hi ⊢
      rcases hinv.backed r0 hr0 i hi with ⟨p0, hp0, hpi, hpp⟩
      exact ⟨p0, List.mem_append.2 (Or.inl hp0), hpi, hpp⟩
  · intro r hr p hp p' hp' hpi hpi' hst
    rcases List.mem_map.1 hr with ⟨r0, hr0, rfl⟩
    by_cases hc : (r0.playerId == current) = true
    · rw [if_pos hc] at hpi hpi'
      have hr0R : r0 = R := hRuniq r0 hr0 (by simpa using hc)
      rw [hr0R] at hpi hpi'
      have hpi2 : p.id ∈ R.onField ++ [newPiece.id] := hpi
      have hpi2' : p'.id ∈ R.onField ++ [newPiece.id] := hpi'
      have key : ∀ x ∈ pieces ++ [newPiece], x.id ∈ R.onField ++ [newPiece.id] →
          (x ∈ pieces ∧ x.id ∈ R.onField) ∨ x = newPiece := by
        intro x hx hxi
        rcases List.mem_append.1 hx with hxo | hxn
        · rcases List.mem_append.1 hxi with hxi | hxi
          · exact Or.inl ⟨hxo, hxi⟩
          · exact absurd (by simpa using hxi) (hfresh x hxo)
        · exact Or.inr (by simpa using hxn)
      rcases key p hp hpi2 with ⟨hpo, hpio⟩ | hpn
      · rcases key p' hp' hpi2' with ⟨hpo', hpio'⟩ | hpn'
        · exact hinv.uniq R hRmem p hpo p' hpo' hpio hpio' hst
        · rw [hpn', hnst] at hst
          have hown := hinv.ownership R hRmem p hpo hpio
          exact absurd htav (hown.2.2 t hst)
      · rcases key p' hp' hpi2' with ⟨hpo', hpio'⟩ | hpn'
        · rw [hpn, hnst] at hst
          have hown := hinv.ownership R hRmem p' hpo' hpio'
          exact absurd htav (hown.2.2 t hst.symm)
        · rw [hpn, hpn']
    · rw [if_neg hc] at hpi hpi'
      have hpo : p ∈ pieces := by
        rcases List.mem_append.1 hp with h | h
        · exact h
        · have hpe : p = newPiece := by simpa using h
          rw [hpe] at hpi
          exact absurd hpi (hfreshF r0 hr0)
      have hpo' : p' ∈ pieces := by
        rcases List.mem_append.1 hp' with h | h
        · exact h
        · have hpe : p' = newPiece := by simpa using h
          rw [hpe] at hpi'
          exact absurd hpi' (hfreshF r0 hr0)
      exact hinv.uniq r0 hr0 p hpo p' hpo' hpi hpi' hst

/-- Inversion facts about a non-intercepted `calculateMove` result: a
captured piece is never the mover itself (the destination filter excludes
the mover's id), and `assassinDies` only ever fires for an Assassin support
mover. -/
theorem calculateMove_inv {pieces : List Piece} {mp : Piece} {color : PlayerColor}
    {steps : Nat} {r : MoveResult} (hr : calculateMove pieces mp color steps = r)
    (hni : r.intercepted = false) :
    (∀ cid, r.capturedPieceId = some cid → cid ≠ mp.id) ∧
    (r.assassinDies = true → mp.kind = .support ∧ mp.supportType = some .assassin) := by
  simp only [calculateMove] at hr
  split at hr
  · subst hr
    refine ⟨?_, ?_⟩ <;> simp [blockedMoveResult]
  · split at hr
    · subst hr
      simp at hni
    · split at hr
      · subst hr
        refine ⟨?_, ?_⟩ <;> simp [blockedMoveResult]
      · split at hr
        · subst hr
          refine ⟨?_, ?_⟩ <;> simp [blockedMoveResult]
        · split at hr
          · subst hr
            refine ⟨?_, ?_⟩ <;> simp
          · split at hr
            · subst hr
              refine ⟨?_, ?_⟩ <;> simp [blockedMoveResult]
            · subst hr
              rename_i mpos heqPos hlen pAT pieceAtTarget tail' heq hguard
              refine ⟨?_, ?_⟩
              · intro cid hcid
                simp only [Option.some.injEq] at hcid
                subst hcid
                have hmem : pieceAtTarget ∈ pieces.filter (fun p =>
                    p.id != mp.id &&
                    (match p.position with
                     | some q => positionsEqual q mpos
                     | none => false) &&
                    !p.isFinished) := by
                  rw [heq]
                  exact List.mem_cons_self _ _
                have hpred := (List.mem_filter.1 hmem).2
                simp only [Bool.and_eq_true, bne_iff_ne, ne_eq] at hpred
                exact hpred.1.1
              · intro ha
                simp only [Bool.and_eq_true, beq_iff_eq] at ha
                exact ha

/-- The engine invariant holds in every freshly created state. -/
theorem enginv_init (env : Env) (pc : Nat) (hc : PlayerColor) (hs : Bool) :
    EngineInv (createInitialState env pc hc hs) := by
  refine ⟨⟨pc, hc, hs, rfl⟩, ?_⟩
  constructor
  · rw [RostersMatch]
    simp [createInitialState]
  · intro r hr
    simp only [createInitialState] at hr
    rcases List.mem_map.1 hr with ⟨pl, hpl, rfl⟩
    simp [MAX_SUPPORTS_ON_FIELD]
  · intro r hr p hp hid
    simp only [createInitialState] at hr
    rcases List.mem_map.1 hr with ⟨pl, hpl, rfl⟩
    simp at hid
  · intro p hp hk
    simp only [createInitialState] at hp
    rcases List.mem_map.1 hp with ⟨pl, hpl, rfl⟩
    simp at hk
  · intro p hp
    simp only [createInitialState] at hp
    rcases List.mem_map.1 hp with ⟨pl, hpl, rfl⟩
    exact Or.inl ⟨rfl, rfl⟩
  · intro p hp
    simp only [createInitialState] at hp
    rcases List.mem_map.1 hp with ⟨pl, hpl, rfl⟩
    show pl.id ∈ _
    simp only [createInitialState]
    exact List.mem_map_of_mem _ hpl
  · intro r hr i hi
    simp only [createInitialState] at hr
    rcases List.mem_map.1 hr with ⟨pl, hpl, rfl⟩
    simp at hi
  · intro r hr p hp q hq hpi hqi
    simp only [createInitialState] at hr
    rcases List.mem_map.1 hr with ⟨pl, hpl, rfl⟩
    simp at hpi

theorem enginv_selectCard {s : GameState} (cardId : String) (h : EngineInv s) :
    EngineInv (selectCardCase s cardId) := by
  unfold selectCardCase
  repeat' split
  all_goals exact enginv_of_fields rfl rfl rfl h

theorem enginv_unselectCard {s : GameState} (h : EngineInv s) :
    EngineInv (unselectCardCase s) := by
  unfold unselectCardCase
  repeat' split
  all_goals exact enginv_of_fields rfl rfl rfl h

theorem enginv_startTurn {s : GameState} (h : EngineInv s) :
    EngineInv (startTurnCase s) := by
  unfold startTurnCase
  repeat' split
  all_goals exact enginv_of_fields rfl rfl rfl h

theorem enginv_cancelAbility {s : GameState} (h : EngineInv s) :
    EngineInv (cancelAbilityCase s) := by
  unfold cancelAbilityCase
  repeat' split
  all_goals exact enginv_of_fields rfl rfl rfl h

theorem enginv_activatePusher {s : GameState} (pieceId : String) (h : EngineInv s) :
    EngineInv (activatePusherCase s pieceId) := by
  unfold activatePusherCase
  repeat' split
  all_goals exact enginv_of_fields rfl rfl rfl h

theorem enginv_claimPortal {s : GameState} (env : Env) (h : EngineInv s) :
    EngineInv (claimPortalCase env s) := by
  unfold claimPortalCase
  repeat' split
  all_goals exact enginv_of_fields rfl rfl rfl h

theorem enginv_skipPortal {s : GameState} (h : EngineInv s) :
    EngineInv (skipPortalCase s) := by
  unfold skipPortalCase
  repeat' split
  all_goals exact enginv_of_fields rfl rfl rfl h

theorem enginv_stealPortal {s : GameState} (env : Env) (position : Position)
    (h : EngineInv s) : EngineInv (stealPortalCase env s position) := by
  unfold stealPortalCase
  dsimp only
  repeat' split
  all_goals exact enginv_of_fields rfl rfl rfl h

theorem enginv_endTurnCase {s : GameState} (env : Env) (h : EngineInv s) :
    EngineInv (endTurnCase env s) := by
  unfold endTurnCase
  repeat' split
  all_goals exact enginv_of_fields rfl rfl rfl h

theorem enginv_refreshHand {s : GameState} (env : Env) (h : EngineInv s) :
    EngineInv (refreshHandCase env s) := by
  unfold refreshHandCase
  repeat' split
  all_goals exact enginv_of_fields rfl rfl rfl h

theorem enginv_enterPiece {s : GameState} (env : Env) (pieceId : String) (usePortal : Bool)
    (h : EngineInv s) : EngineInv (enterPieceCase env s pieceId usePortal) := by
  unfold enterPieceCase
  dsimp only
  repeat' split
  all_goals first
    | exact enginv_of_fields rfl rfl rfl h
    | (refine ⟨h.1, prinv_map _ ?_ h.2⟩
       intro p
       dsimp only
       split <;> simp)

theorem enginv_summonSupport {s : GameState} (env : Env) (supportType : SupportType)
    (usePortal : Bool) (h : EngineInv s) :
    EngineInv (summonSupportCase env s supportType usePortal) := by
  unfold summonSupportCase
  dsimp only
  repeat' split
  all_goals try exact enginv_of_fields rfl rfl rfl h
  rename_i player heqp x2 roster heqr hav hcp er epos pidx heqe
  have hplm := List.mem_of_find?_eq_some heqp
  have hpid : player.id = s.currentPlayerId := by simpa using List.find?_some heqp
  have htav : supportType ∈ roster.available := by simpa using hav
  have hcap' : roster.onField.length < MAX_SUPPORTS_ON_FIELD := by omega
  exact ⟨h.1, prinv_summon h.1 h.2 hplm hpid heqr htav hcap' env.now rfl rfl rfl rfl⟩

/-- Invariant preservation for the capture-resolution prelude (`step1`) of
`EXECUTE_PUSH`, together with survival of the push target (the destination
find explicitly excludes the target's id). -/
theorem prinv_push_step1 (env : Env) {s : GameState} (target : Piece)
    (pushDest : Position)
    {p1 : List Piece} {r1 : List SupportRoster} {l1 : List LogEntry} {c1 : Nat}
    (h : EngineInv s)
    (heq : (match s.pieces.find? (fun p =>
        (match p.position with
         | some q => positionsEqual q pushDest
         | none => false) && !p.isFinished && p.id != target.id) with
      | none => (s.pieces, s.supportRosters, s.log, env.logCtr)
      | some pieceAtDest =>
        let capturedPlayer := s.players.find? (fun p => p.id == pieceAtDest.playerId)
        if pieceAtDest.kind == .hero then
          (s.pieces.map (fun p =>
             if p.id == pieceAtDest.id then { p with position := none, pathIndex := -1 }
             else p),
           s.supportRosters,
           s.log ++ [createLogEntry env.logCtr (capturedPlayer.getD defaultPlayer)
             .hero_reset],
           env.logCtr + 1)
        else
          (s.pieces.filter (fun p => p.id != pieceAtDest.id),
           s.supportRosters.map (fun roster =>
             if roster.playerId == pieceAtDest.playerId then
               { roster with
                 onField := roster.onField.filter (fun id => id != pieceAtDest.id)
                 available := roster.available ++ pieceAtDest.supportType.toList }
             else roster),
           s.log,
           env.logCtr)) = (p1, r1, l1, c1)) :
    PRInv s.players p1 r1 ∧ (target ∈ s.pieces → target ∈ p1) := by
  split at heq
  · simp only [Prod.mk.injEq] at heq
    obtain ⟨h1, h2, h3, h4⟩ := heq
    subst h1
    subst h2
    exact ⟨h.2, fun ht => ht⟩
  · rename_i pieceAtDest hfind
    have hpred := List.find?_some hfind
    simp only [Bool.and_eq_true, bne_iff_ne, ne_eq] at hpred
    have hne : pieceAtDest.id ≠ target.id := hpred.2
    have hne' : target.id ≠ pieceAtDest.id := Ne.symm hne
    have hmem := List.mem_of_find?_eq_some hfind
    split at heq
    · simp only [Prod.mk.injEq] at heq
      obtain ⟨h1, h2, h3, h4⟩ := heq
      subst h1
      subst h2
      constructor
      · refine prinv_map _ ?_ h.2
        intro p
        dsimp only
        split <;> simp
      · intro ht
        have himg := List.mem_map_of_mem (fun p =>
          if (p.id == pieceAtDest.id) = true then
            { p with position := none, pathIndex := -1 }
          else p) ht
        have hfeq : (fun p =>
            if (p.id == pieceAtDest.id) = true then
              { p with position := none, pathIndex := -1 }
            else p) target = target := by
          simp [hne']
        rw [hfeq] at himg
        exact himg
    · rename_i hnothero
      have hkind : pieceAtDest.kind = .support := by
        cases hkk : pieceAtDest.kind
        · rw [hkk] at hnothero
          simp at hnothero
        · rfl
      rcases h.2.idshape pieceAtDest hmem with ⟨hk, _⟩ | ⟨_, t, n, hst, _⟩
      · rw [hk] at hkind
        cases hkind
      simp only [Prod.mk.injEq] at heq
      obtain ⟨h1, h2, h3, h4⟩ := heq
      subst h1
      subst h2
      constructor
      · exact prinv_remove pieceAtDest pieceAtDest.supportType.toList h.2
          (playersShape_id_nodup h.1) hmem hkind ⟨t, hst, by simp [hst]⟩
      · intro ht
        refine List.mem_filter.2 ⟨ht, ?_⟩
        simpa using hne'

theorem enginv_executePush {s : GameState} (env : Env) (targetPieceId : String)
    (h : EngineInv s) : EngineInv (executePushCase env s targetPieceId) := by
  unfold executePushCase
  dsimp only
  split
  · exact enginv_of_fields rfl rfl rfl h
  split
  · exact enginv_of_fields rfl rfl rfl h
  split
  · exact enginv_of_fields rfl rfl rfl h
  split
  · exact enginv_of_fields rfl rfl rfl h
  split
  · exact enginv_of_fields rfl rfl rfl h
  split
  · exact enginv_of_fields rfl rfl rfl h
  split
  · exact enginv_of_fields rfl rfl rfl h
  split
  · exact enginv_of_fields rfl rfl rfl h
  split
  · exact enginv_of_fields rfl rfl rfl h
  rename_i hph x7 abilityId heqab x6 pusher heqpu x5 pusherPos heqpp x4 target heqta x3 targetPos heqtp hadj x2 pushDest heqpd x1 player heqpl
  have hstep := prinv_push_step1 env target pushDest h rfl
  by_cases hc1 : isCenter pushDest = true
  · rw [if_pos hc1]
    by_cases hc2 : (target.kind == PieceKind.hero) = true
    · rw [if_pos hc2]
      exact ⟨h.1, prinv_map _ (by intro p; split <;> simp) hstep.1⟩
    · rw [if_neg hc2]
      have htmem := hstep.2 (List.mem_of_find?_eq_some heqta)
      have hkind : target.kind = .support := by
        cases hkk : target.kind
        · rw [hkk] at hc2
          simp at hc2
        · rfl
      rcases hstep.1.idshape target htmem with ⟨hk, _⟩ | ⟨_, t, n, hst, _⟩
      · simp [hk] at hkind
      exact ⟨h.1, prinv_remove target target.supportType.toList hstep.1
        (playersShape_id_nodup h.1) htmem hkind ⟨t, hst, by simp [hst]⟩⟩
  · rw [if_neg hc1]
    exact ⟨h.1, prinv_map _ (by intro p; split <;> simp) hstep.1⟩

/-- Invariant preservation for the capture-resolution step (`step1`) of
`MOVE_PIECE`, together with survival of the mover when the captured id is
not the mover's own. -/
theorem prinv_move_step1 (env : Env) {s : GameState} (player : Player) (piece : Piece)
    (mr : MoveResult)
    {p1 : List Piece} {r1 : List SupportRoster} {l1 : List LogEntry} {c1 : Nat}
    (h : EngineInv s)
    (hcapne : ∀ cid, mr.capturedPieceId = some cid → cid ≠ piece.id)
    (heq : (match mr.capturedPieceId with
      | none => (s.pieces, s.supportRosters, s.log, env.logCtr)
      | some capturedId =>
        match s.pieces.find? (fun p => p.id == capturedId) with
        | none => (s.pieces, s.supportRosters, s.log, env.logCtr)
        | some capturedPiece =>
          let capturedPlayer := s.players.find? (fun p => p.id == capturedPiece.playerId)
          if capturedPiece.kind == .hero then
            (s.pieces.map (fun p =>
               if p.id == capturedId then { p with position := none, pathIndex := -1 }
               else p),
             s.supportRosters,
             s.log ++
               [createLogEntry env.logCtr player .captured none
                  (capturedPlayer.map (fun p => p.name)),
                createLogEntry (env.logCtr + 1) (capturedPlayer.getD defaultPlayer)
                  .hero_reset],
             env.logCtr + 2)
          else
            (s.pieces.filter (fun p => p.id != capturedId),
             s.supportRosters.map (fun roster =>
               if roster.playerId == capturedPiece.playerId then
                 { roster with
                   onField := roster.onField.filter (fun id => id != capturedPiece.id)
                   available := roster.available ++ capturedPiece.supportType.toList }
               else roster),
             s.log ++
               [createLogEntry env.logCtr player .captured none
                  (capturedPlayer.map (fun p => p.name)) capturedPiece.supportType],
             env.logCtr + 1)) = (p1, r1, l1, c1)) :
    PRInv s.players p1 r1 ∧ (piece ∈ s.pieces → piece ∈ p1) := by
  split at heq
  · simp only [Prod.mk.injEq] at heq
    obtain ⟨h1, h2, h3, h4⟩ := heq
    subst h1
    subst h2
    exact ⟨h.2, fun ht => ht⟩
  · rename_i capturedId heqc
    have hcne : capturedId ≠ piece.id := hcapne capturedId heqc
    split at heq
    · simp only [Prod.mk.injEq] at heq
      obtain ⟨h1, h2, h3, h4⟩ := heq
      subst h1
      subst h2
      exact ⟨h.2, fun ht => ht⟩
    · rename_i capturedPiece hfind
      have hcidm : capturedPiece.id = capturedId := by simpa using List.find?_some hfind
      have hmem := List.mem_of_find?_eq_some hfind
      split at heq
      · simp only [Prod.mk.injEq] at heq
        obtain ⟨h1, h2, h3, h4⟩ := heq
        subst h1
        subst h2
        constructor
        · refine prinv_map _ ?_ h.2
          intro p
          dsimp only
          split <;> simp
        · intro ht
          have himg := List.mem_map_of_mem (fun p =>
            if (p.id == capturedId) = true then
              { p with position := none, pathIndex := -1 }
            else p) ht
          have hfeq : (fun p =>
              if (p.id == capturedId) = true then
                { p with position := none, pathIndex := -1 }
              else p) piece = piece := by
            simp [Ne.symm hcne]
          rw [hfeq] at himg
          exact himg
      · rename_i hnothero
        have hkind : capturedPiece.kind = .support := by
          cases hkk : capturedPiece.kind
          · rw [hkk] at hnothero
            simp at hnothero
          · rfl
        rcases h.2.idshape capturedPiece hmem with ⟨hk, _⟩ | ⟨_, t, n, hst, _⟩
        · simp [hk] at hkind
        simp only [Prod.mk.injEq] at heq
        obtain ⟨h1, h2, h3, h4⟩ := heq
        subst h1
        subst h2
        constructor
        · have hfun : (fun p : Piece => p.id != capturedId) =
              (fun p : Piece => p.id != capturedPiece.id) := by
            rw [hcidm]
          rw [hfun]
          exact prinv_remove capturedPiece capturedPiece.supportType.toList h.2
            (playersShape_id_nodup h.1) hmem hkind ⟨t, hst, by simp [hst]⟩
        · intro ht
          refine List.mem_filter.2 ⟨ht, ?_⟩
          simpa using Ne.symm hcne

set_option maxHeartbeats 2000000 in
theorem enginv_movePiece {s : GameState} (env : Env) (pieceId : String)
    (h : EngineInv s) : EngineInv (movePieceCase env s pieceId) := by
  unfold movePieceCase
  split
  · exact enginv_of_fields rfl rfl rfl h
  split
  · exact enginv_of_fields rfl rfl rfl h
  split
  · exact enginv_of_fields rfl rfl rfl h
  split
  · exact enginv_of_fields rfl rfl rfl h
  split
  · exact enginv_of_fields rfl rfl rfl h
  rename_i x5 playedCard heqsel x4 piece heqf hpid hposfin x0 player heqpl
  lift_lets
  extract_lets steps moveResult centerIndex blockerOwner hand1 hand2 hand3 newHands isFinishing supportReachesCenter step1
  split
  · exact enginv_of_fields rfl rfl rfl h
  split
  · by_cases hk : (piece.kind == PieceKind.hero) = true
    · rw [if_pos hk]
      exact ⟨h.1, prinv_map _ (by intro p; split <;> simp) h.2⟩
    · rw [if_neg hk]
      have hmem := List.mem_of_find?_eq_some heqf
      have hkind : piece.kind = .support := by
        cases hkk : piece.kind
        · rw [hkk] at hk
          simp at hk
        · rfl
      rcases h.2.idshape piece hmem with ⟨hkh, _⟩ | ⟨_, t, n, hst, _⟩
      · simp [hkh] at hkind
      exact ⟨h.1, prinv_remove piece piece.supportType.toList h.2
        (playersShape_id_nodup h.1) hmem hkind ⟨t, hst, by simp [hst]⟩⟩
  rename_i hint
  split
  · exact enginv_of_fields rfl rfl rfl h
  rename_i x3 newPos heqnp
  have hni2 : moveResult.intercepted = false := by simpa using hint
  have hcm := @calculateMove_inv s.pieces piece player.color steps moveResult rfl hni2
  have hstep := prinv_move_step1 env player piece moveResult h hcm.1
    (show _ = (step1.1, step1.2.1, step1.2.2.1, step1.2.2.2) from rfl)
  have hpm1 := hstep.2 (List.mem_of_find?_eq_some heqf)
  lift_lets
  extract_lets alreadyClaimed
  clear_value step1
  obtain ⟨pieces1, rosters1, log1, ctr1⟩ := step1
  dsimp only
  by_cases had : moveResult.assassinDies = true
  · rw [if_pos had]
    have hass := hcm.2 had
    have hinv2 := prinv_remove piece [SupportType.assassin] hstep.1
      (playersShape_id_nodup h.1) hpm1 hass.1 ⟨SupportType.assassin, hass.2, rfl⟩
    repeat' split
    all_goals exact ⟨h.1, hinv2⟩
  · rw [if_neg had]
    by_cases hsc : supportReachesCenter = true
    · rw [if_pos hsc]
      have hsc2 : (moveResult.finalIndex == centerIndex &&
          piece.kind == PieceKind.support) = true := hsc
      simp only [Bool.and_eq_true, beq_iff_eq] at hsc2
      rcases hstep.1.idshape piece hpm1 with ⟨hkh, _⟩ | ⟨_, t, n, hst, _⟩
      · simp [hkh] at hsc2
      have hinv2 := prinv_remove piece piece.supportType.toList hstep.1
        (playersShape_id_nodup h.1) hpm1 hsc2.2 ⟨t, hst, by simp [hst]⟩
      repeat' split
      all_goals exact ⟨h.1, hinv2⟩
    · rw [if_neg hsc]
      have hinv2 := prinv_map (fun p =>
        if (p.id == piece.id) = true then
          { p with position := some newPos
                   pathIndex := moveResult.finalIndex
                   isFinished := isFinishing }
        else p) (by intro p; first | (dsimp only; split <;> simp) | (split <;> simp)) hstep.1
      repeat' split
      all_goals exact ⟨h.1, hinv2⟩

/-- One dispatch through `gameReducer` preserves the engine invariant. -/
theorem enginv_step (env : Env) (s : GameState) (a : GameAction) (h : EngineInv s) :
    EngineInv (gameReducer env s a) := by
  cases a with
  | SELECT_CARD cardId => exact enginv_selectCard cardId h
  | UNSELECT_CARD => exact enginv_unselectCard h
  | MOVE_PIECE pieceId => exact enginv_movePiece env pieceId h
  | ENTER_PIECE pieceId usePortal => exact enginv_enterPiece env pieceId usePortal h
  | CLAIM_PORTAL => exact enginv_claimPortal env h
  | SKIP_PORTAL => exact enginv_skipPortal h
  | STEAL_PORTAL position => exact enginv_stealPortal env position h
  | END_TURN => exact enginv_endTurnCase env h
  | START_TURN => exact enginv_startTurn h
  | REFRESH_HAND => exact enginv_refreshHand env h
  | RESET_GAME pc hc hs => exact enginv_init env pc hc hs
  | SUMMON_SUPPORT st usePortal => exact enginv_summonSupport env st usePortal h
  | ACTIVATE_PUSHER pieceId => exact enginv_activatePusher pieceId h
  | EXECUTE_PUSH targetPieceId => exact enginv_executePush env targetPieceId h
  | CANCEL_ABILITY => exact enginv_cancelAbility h

/-- The engine invariant holds in every reachable state. -/
theorem reachable_enginv {s : GameState} (h : Reachable s) : EngineInv s := by
  induction h with
  | init env pc hc hs => exact enginv_init env pc hc hs
  | step s env a _ ih => exact enginv_step env s a ih

/-- C5: in every state reachable from `createInitialState` via `gameReducer`,
each player's support roster satisfies `onField.length ≤ MAX_SUPPORTS_ON_FIELD`
(= 3), and no support subtype is simultaneously a member of the roster's
`available` pool and the subtype of a piece whose id is in `onField`. -/
theorem c5_roster_invariant {s : GameState} (h : Reachable s) :
    ∀ r ∈ s.supportRosters,
      r.onField.length ≤ MAX_SUPPORTS_ON_FIELD ∧
      ∀ p ∈ s.pieces, p.id ∈ r.onField →
        ∀ t, p.supportType = some t → t ∉ r.available := by
  have hinv := reachable_enginv h
  intro r hr
  refine ⟨hinv.2.cap r hr, ?_⟩
  intro p hp hid t ht
  exact (hinv.2.ownership r hr p hp hid).2.2 t ht

theorem c5_witness :
    ({ playerId := "player-0", available := ALL_SUPPORT_TYPES, onField := [] } : SupportRoster) ∈
        (createInitialState envW 2 PlayerColor.red false).supportRosters ∧
    ({ playerId := "player-0", available := ALL_SUPPORT_TYPES, onField := [] } : SupportRoster).onField.length ≤
        MAX_SUPPORTS_ON_FIELD :=
  ⟨by decide,
    (c5_roster_invariant (Reachable.init envW 2 PlayerColor.red false)
      { playerId := "player-0", available := ALL_SUPPORT_TYPES, onField := [] }
      (by decide)).1⟩
